import Mathlib

/-!
# dbf2sqlite: the schema mapper, the transfer engine and the driver

A shallow embedding of `src/dbf2sqlite3.cpp`.  The two collaborators (the DBF
reader under `dbase/` and sqlite3) are not part of the program: every call made
on them is recorded in a trace of `Call`s, and what they answer is read from an
`Env`, one entry per call site (and per record / field where the call sits in
a loop).  A `std::stringstream` is a `String` that grows to the right, a thrown
`std::runtime_error` is `Except.error` carrying `what()`.
-/

namespace Dbf2Sqlite

/-! ## Data model -/

/-- Modelled from the spec: the `enum dbf_data_type` of `dbase/dbf.h`, a header
that is not among the sources.  The program names four of its enumerators (the
Character, Numeric, FloatingPoint and Boolean of the specification); every
other value of the enum reaches the `default:` branch of both switches and is
kept as `other`. -/
inductive dbf_data_type where
  | DBF_DATA_TYPE_CHAR
  | DBF_DATA_TYPE_INTEGER
  | DBF_DATA_TYPE_FLOAT
  | DBF_DATA_TYPE_BOOLEAN
  | other (tag : Nat)
  deriving DecidableEq, Repr

open dbf_data_type

/-- Modelled from the spec: the `DBF_FIELD_INFO` record of `dbase/dbf.h` (not
among the sources), the FieldDescriptor of the specification, with the four
members the program reads. -/
structure DBF_FIELD_INFO where
  name : String
  type : dbf_data_type
  length : Nat
  decimals : Nat
  deriving DecidableEq, Repr

/-- The catalog: `using FieldListT = std::vector<DBF_FIELD_INFO>`. -/
abbrev FieldListT := List DBF_FIELD_INFO

/-- A C `double`, carried around by its bit pattern; the program never computes
with one, it only hands it from the reader to sqlite. -/
structure CDouble where
  bits : Nat
  deriving DecidableEq, Repr

/-- Modelled from the spec: the success result of the write API, `SQLITE_OK` of
sqlite3.h (not among the sources).  The program only compares with it. -/
def SQLITE_OK : Int := 0

/-- Modelled from the spec: the row-done result of `step`, `SQLITE_DONE` of
sqlite3.h (not among the sources).  The program only compares with it. -/
def SQLITE_DONE : Int := 101

/-- Conversion of an integer value to the 32-bit `int` parameter of
`sqlite3_bind_int`: reduction modulo `2^32` into `[-2^31, 2^31)`. -/
def toInt32 (v : Int) : Int :=
  (v + 2147483648) % 4294967296 - 2147483648

/-- Every call the program makes on a collaborator, with the arguments that
matter (handles are left out: there is one of each). -/
inductive Call where
  | dbf_open (file : String)
  | dbf_close
  | dbf_getfieldcount
  | dbf_getfield_info (fieldIndex : Nat)
  | dbf_getrecordcount
  | dbf_setposition (i : Nat)
  | dbf_getfieldptr (f : Nat)
  | dbf_getfield (f : Nat) (buf_len : Nat)
  | dbf_getfield_numeric (f : Nat)
  | dbf_getfield_float (f : Nat)
  | dbf_getfield_bool (f : Nat)
  | sqlite3_open (file : String)
  | sqlite3_close
  | sqlite3_exec (sqlcommand : String)
  | sqlite3_errmsg
  | sqlite3_prepare_v2 (sqlcommand : String)
  | sqlite3_finalize
  | sqlite3_reset
  | sqlite3_clear_bindings
  | sqlite3_bind_text (pos : Nat) (value : String)
  | sqlite3_bind_int (pos : Nat) (value : Int)
  | sqlite3_bind_double (pos : Nat) (value : CDouble)
  | sqlite3_step
  | cerr (text : String)
  deriving DecidableEq, Repr

/-- What one `sqlite3_exec` through `cpp_sqlite3_exec` answers: the result
code, the message it allocates (if any), and what `sqlite3_errmsg` says
afterwards. -/
structure ExecAnswer where
  ret : Int
  szerrmsg : Option String
  errmsg : String

/-- The behaviour of the two collaborators during one run.  Each call site is
reached at most once per record and field, so one answer per site (indexed by
record and field inside the record loop) covers every possible behaviour. -/
structure Env where
  /-- `dbf_open` returned a non-null handle -/
  dbf_open : Bool
  /-- `sqlite3_open`: result code, and whether `sql` is non-null afterwards -/
  sqlite3_open : Int × Bool
  dbf_getfieldcount : Nat
  /-- `dbf_getfield_info`: `none` when it returns false -/
  dbf_getfield_info : Nat → Option DBF_FIELD_INFO
  /-- the `create table` statement -/
  execCreateTable : ExecAnswer
  /-- the `create index` statement -/
  execCreateIndex : ExecAnswer
  /-- `sqlite3_prepare_v2`: result code, whether `stmt` is non-null, and what
  `sqlite3_errmsg` says afterwards -/
  sqlite3_prepare_v2 : Int × Bool × String
  dbf_getrecordcount : Nat
  /-- `dbf_getfield` of a character field of record `i`, field `f`: the bytes
  it wrote (the first `fsize` bytes of the buffer) -/
  dbf_getfield : Nat → Nat → String
  /-- `dbf_getfield_numeric` at record `i`, field `f`: `none` when it fails -/
  dbf_getfield_numeric : Nat → Nat → Option Int
  /-- `dbf_getfield_float` at record `i`, field `f` -/
  dbf_getfield_float : Nat → Nat → Option CDouble
  /-- `dbf_getfield_bool` at record `i`, field `f`: the logical value written
  to the `BOOL` (declared in `dbase/dbf.h`, not among the sources; a logical
  value bound as 0 or 1 in the specification), `none` when it fails -/
  dbf_getfield_bool : Nat → Nat → Option Bool
  /-- `sqlite3_step` for record `i`: result code, and what `sqlite3_errmsg`
  says afterwards -/
  sqlite3_step : Nat → Int × String

/-! ## Schema mapper: `SQLCreateTable` -/

/-- One turn of the `for` loop of `SQLCreateTable` (lines 54-81) and the turns
after it: `i` is the loop index of the head of the list, `sqlcommand` the
stream so far. -/
def createTableLoop : FieldListT → Nat → String → Except String String
  | [], _, sqlcommand => .ok sqlcommand
  | field :: rest, i, sqlcommand =>
    let sqlcommand := if i != 0 then sqlcommand ++ ", " else sqlcommand
    let sqlcommand := sqlcommand ++ field.name ++ " "
    match field.type with
    | DBF_DATA_TYPE_CHAR =>
      createTableLoop rest (i + 1)
        (sqlcommand ++ "varchar(" ++ toString field.length ++ ")" ++ " ")
    | DBF_DATA_TYPE_INTEGER =>
      if field.decimals == 0 then
        createTableLoop rest (i + 1) (sqlcommand ++ "integer" ++ " ")
      else
        createTableLoop rest (i + 1) (sqlcommand ++ "real" ++ " ")
    | DBF_DATA_TYPE_FLOAT =>
      createTableLoop rest (i + 1) (sqlcommand ++ "real" ++ " ")
    | DBF_DATA_TYPE_BOOLEAN =>
      createTableLoop rest (i + 1) (sqlcommand ++ "boolean" ++ " ")
    | other _ =>
      .error ("dbf2sql: not supported field " ++ field.name)

/-- The text of the `create table` statement (lines 51-82), or the exception
thrown while it is built. -/
def createTableText (tablename : String) (fields : FieldListT) : Except String String :=
  match createTableLoop fields 0 ("create table \"" ++ tablename ++ "\" (recordid integer, ") with
  | .ok sqlcommand => .ok (sqlcommand ++ ")")
  | .error e => .error e

/-- The text of the `create index` statement (line 90). -/
def createIndexText (tablename : String) : String :=
  "create index " ++ tablename ++ "_recordid_index on " ++ tablename ++ "(recordid)"

/-- The function `cpp_sqlite3_exec`: the call, and the new value of `errmsg`. -/
def cpp_sqlite3_exec (answer : ExecAnswer) (sqlcommand : String) (errmsg : String) :
    List Call × Int × String :=
  ([Call.sqlite3_exec sqlcommand], answer.ret,
    match answer.szerrmsg with
    | some s => s
    | none => errmsg)

/-- The function `SQLCreateTable`: the calls made on the collaborators, and
the exception thrown if any. -/
def SQLCreateTable (env : Env) (tablename : String) (fields : FieldListT) :
    List Call × Except String Unit :=
  match createTableText tablename fields with
  | .error e => ([], .error e)
  | .ok sqlcommand =>
    let first := cpp_sqlite3_exec env.execCreateTable sqlcommand ""
    if first.2.1 != SQLITE_OK then
      (first.1 ++ [Call.sqlite3_errmsg],
        .error ("sqlite3 error during create table: " ++ first.2.2 ++ ": "
          ++ env.execCreateTable.errmsg))
    else
      let second := cpp_sqlite3_exec env.execCreateIndex (createIndexText tablename) first.2.2
      if second.2.1 != SQLITE_OK then
        (first.1 ++ second.1 ++ [Call.sqlite3_errmsg],
          .error ("sqlite3 error during create index: " ++ second.2.2 ++ ": "
            ++ env.execCreateIndex.errmsg))
      else
        (first.1 ++ second.1, .ok ())

/-- The destination column type of the mapping table of the specification
(section 4.2), following its words: Character is text sized to `length`,
Numeric is integer when `decimals == 0` and real when `decimals > 0`,
FloatingPoint is real, Boolean is boolean, anything else has none. -/
def specColumnType (field : DBF_FIELD_INFO) : Option String :=
  match field.type with
  | DBF_DATA_TYPE_CHAR => some ("varchar(" ++ toString field.length ++ ")")
  | DBF_DATA_TYPE_INTEGER => if field.decimals = 0 then some "integer" else some "real"
  | DBF_DATA_TYPE_FLOAT => some "real"
  | DBF_DATA_TYPE_BOOLEAN => some "boolean"
  | other _ => none

/-- A field whose type is one of Character, Numeric, FloatingPoint, Boolean. -/
def supported (field : DBF_FIELD_INFO) : Bool :=
  match field.type with
  | other _ => false
  | _ => true

/-! ## Catalog builder: `GetDBFFields` -/

/-- The `for` loop of `GetDBFFields` (lines 39-45): `n` turns remain, the next
one is for `fieldIndex`. -/
def GetDBFFieldsLoop (env : Env) : Nat → Nat → FieldListT → List Call × Except String FieldListT
  | 0, _, result => ([], .ok result)
  | n + 1, fieldIndex, result =>
    match env.dbf_getfield_info fieldIndex with
    | none =>
      ([Call.dbf_getfield_info fieldIndex],
        .error ("fail to get field " ++ toString fieldIndex))
    | some field =>
      let later := GetDBFFieldsLoop env n (fieldIndex + 1) (result ++ [field])
      (Call.dbf_getfield_info fieldIndex :: later.1, later.2)

/-- The function `GetDBFFields`. -/
def GetDBFFields (env : Env) : List Call × Except String FieldListT :=
  let loop := GetDBFFieldsLoop env env.dbf_getfieldcount 0 []
  (Call.dbf_getfieldcount :: loop.1, loop.2)

/-! ## Transfer engine: `DBDataToSQL` -/

/-- The four lambdas that `DBDataToSQL` pushes on `bindFunctions`, named after
the `case` that pushes them. -/
inductive BindFunction where
  | charBinder
  | integerBinder
  | floatBinder
  | booleanBinder
  deriving DecidableEq, Repr

/-- The first `for` loop of `DBDataToSQL` (lines 105-161): it writes the column
names to the stream and pushes one lambda per field. -/
def insertLoop : FieldListT → Nat → String → List BindFunction →
    Except String (String × List BindFunction)
  | [], _, sqlcommand, bindFunctions => .ok (sqlcommand, bindFunctions)
  | field :: rest, i, sqlcommand, bindFunctions =>
    let sqlcommand := if i > 0 then sqlcommand ++ ", " else sqlcommand
    let sqlcommand := sqlcommand ++ field.name
    match field.type with
    | DBF_DATA_TYPE_CHAR =>
      insertLoop rest (i + 1) sqlcommand (bindFunctions ++ [BindFunction.charBinder])
    | DBF_DATA_TYPE_INTEGER =>
      insertLoop rest (i + 1) sqlcommand (bindFunctions ++ [BindFunction.integerBinder])
    | DBF_DATA_TYPE_FLOAT =>
      insertLoop rest (i + 1) sqlcommand (bindFunctions ++ [BindFunction.floatBinder])
    | DBF_DATA_TYPE_BOOLEAN =>
      insertLoop rest (i + 1) sqlcommand (bindFunctions ++ [BindFunction.booleanBinder])
    | other _ => .error "not implement"

/-- The second `for` loop (lines 163-164), one `?` per turn, a comma before
every one but the first. -/
def placeholders : Nat → Nat → String → String
  | 0, _, sqlcommand => sqlcommand
  | n + 1, i, sqlcommand =>
    placeholders n (i + 1) (sqlcommand ++ (if i == 0 then "" else ",") ++ "?")

/-- The text of the `insert` statement (lines 104-165) together with
`bindFunctions`, or the exception thrown while they are built. -/
def insertText (tablename : String) (fields : FieldListT) :
    Except String (String × List BindFunction) :=
  match insertLoop fields 0 ("insert into " ++ tablename ++ "(") [] with
  | .error e => .error e
  | .ok (sqlcommand, bindFunctions) =>
    .ok (placeholders (fields.length + 1) 0 (sqlcommand ++ ", recordid) values (") ++ ")",
      bindFunctions)

/-- The field `fields[f]` as a lambda reads it; the index is in range in every
call the program makes. -/
def fieldAt (fields : FieldListT) (f : Nat) : DBF_FIELD_INFO :=
  fields.getD f { name := "", type := other 0, length := 0, decimals := 0 }

/-- The body of a lambda, called with `f` while the reader stands on record
`i`; `currecord` is the captured local of `DBDataToSQL`. -/
def callBindFunction (env : Env) (fields : FieldListT) (currecord : Int) (i : Nat) :
    BindFunction → Nat → List Call × Except String Unit
  | .charBinder, f =>
    ([Call.dbf_getfieldptr f, Call.dbf_getfield f (fieldAt fields f).length,
      Call.sqlite3_bind_text (f + 1) (env.dbf_getfield i f)], .ok ())
  | .integerBinder, f =>
    if (fieldAt fields f).decimals == 0 then
      match env.dbf_getfield_numeric i f with
      | none =>
        ([Call.dbf_getfieldptr f, Call.dbf_getfield_numeric f],
          .error ("dbf: fail to read integer field " ++ (fieldAt fields f).name
            ++ " for record " ++ toString currecord))
      | some data =>
        ([Call.dbf_getfieldptr f, Call.dbf_getfield_numeric f,
          Call.sqlite3_bind_int (f + 1) (toInt32 data)], .ok ())
    else
      match env.dbf_getfield_float i f with
      | none =>
        ([Call.dbf_getfieldptr f, Call.dbf_getfield_float f],
          .error ("dbf: fail to read float field " ++ (fieldAt fields f).name
            ++ " for record " ++ toString currecord))
      | some data =>
        ([Call.dbf_getfieldptr f, Call.dbf_getfield_float f,
          Call.sqlite3_bind_double (f + 1) data], .ok ())
  | .floatBinder, f =>
    match env.dbf_getfield_float i f with
    | none =>
      ([Call.dbf_getfieldptr f, Call.dbf_getfield_float f],
        .error ("dbf: fail to read float field " ++ (fieldAt fields f).name
          ++ " for record " ++ toString currecord))
    | some data =>
      ([Call.dbf_getfieldptr f, Call.dbf_getfield_float f,
        Call.sqlite3_bind_double (f + 1) data], .ok ())
  | .booleanBinder, f =>
    match env.dbf_getfield_bool i f with
    | none =>
      ([Call.dbf_getfieldptr f, Call.dbf_getfield_bool f],
        .error ("dbf: fail to read bool field " ++ (fieldAt fields f).name
          ++ " for record " ++ toString currecord))
    | some data =>
      ([Call.dbf_getfieldptr f, Call.dbf_getfield_bool f,
        Call.sqlite3_bind_int (f + 1) (if data then 1 else 0)], .ok ())

/-- A `for` loop whose body makes calls and may throw: the body runs for the
`n` indices from `x` on, and the first exception ends the loop. -/
def forLoop (body : Nat → List Call × Except String Unit) :
    Nat → Nat → List Call × Except String Unit
  | 0, _ => ([], .ok ())
  | n + 1, x =>
    match (body x).2 with
    | .error e => ((body x).1, .error e)
    | .ok () => ((body x).1 ++ (forLoop body n (x + 1)).1, (forLoop body n (x + 1)).2)

/-- The body of the inner loop (line 182): `bindFunctions[f](f)`, while the
reader stands on record `i`. -/
def bindTurn (env : Env) (fields : FieldListT) (bindFunctions : List BindFunction)
    (currecord : Int) (i f : Nat) : List Call × Except String Unit :=
  match bindFunctions[f]? with
  | none => ([], .error "bindFunctions[f] out of range")
  | some bindFunction => callBindFunction env fields currecord i bindFunction f

/-- The inner `for` loop (lines 181-182) for record `i`. -/
def bindLoop (env : Env) (fields : FieldListT) (bindFunctions : List BindFunction)
    (currecord : Int) (i : Nat) : List Call × Except String Unit :=
  forLoop (bindTurn env fields bindFunctions currecord i) fields.length 0

/-- The body of the record loop (lines 178-185) for record `i`.  `i + 1` is
computed in `dbf_uint` (declared in `dbase/dbf.h`; whatever its width there is
no wrap, `i` being below a record count of that type) and converted to the
`int` that `sqlite3_bind_int` takes. -/
def recordTurn (env : Env) (fields : FieldListT) (bindFunctions : List BindFunction)
    (currecord : Int) (i : Nat) : List Call × Except String Unit :=
  let binds := bindLoop env fields bindFunctions currecord i
  let head := [Call.dbf_setposition i, Call.sqlite3_reset, Call.sqlite3_clear_bindings]
    ++ binds.1
  match binds.2 with
  | .error e => (head, .error e)
  | .ok () =>
    let head := head ++
      [Call.sqlite3_bind_int (fields.length + 1) (toInt32 ((i + 1 : Nat) : Int)),
        Call.sqlite3_step]
    if (env.sqlite3_step i).1 != SQLITE_DONE then
      (head ++ [Call.sqlite3_errmsg],
        .error ("sqlite: fail to insert data for record " ++ toString i ++ ": "
          ++ (env.sqlite3_step i).2))
    else
      (head, .ok ())

/-- The record loop (lines 176-186) over `recordCount` records. -/
def recordLoop (env : Env) (fields : FieldListT) (bindFunctions : List BindFunction)
    (currecord : Int) (recordCount : Nat) : List Call × Except String Unit :=
  forLoop (recordTurn env fields bindFunctions currecord) recordCount 0

/-- The function `DBDataToSQL`.  `currecord` is initialised to 0 (line 103) and
no statement of the function assigns to it.  `stmtReleaser` finalizes the
statement when the function is left after a successful prepare. -/
def DBDataToSQL (env : Env) (fields : FieldListT) (tablename : String) :
    List Call × Except String Unit :=
  let currecord : Int := 0
  match insertText tablename fields with
  | .error e => ([], .error e)
  | .ok (sqlcommand, bindFunctions) =>
    if env.sqlite3_prepare_v2.1 != SQLITE_OK then
      ([Call.sqlite3_prepare_v2 sqlcommand, Call.sqlite3_errmsg],
        .error ("sqlite: fail to parse sql " ++ sqlcommand ++ ": "
          ++ env.sqlite3_prepare_v2.2.2))
    else
      let loop := recordLoop env fields bindFunctions currecord env.dbf_getrecordcount
      ([Call.sqlite3_prepare_v2 sqlcommand, Call.dbf_getrecordcount] ++ loop.1
        ++ (if env.sqlite3_prepare_v2.2.1 then [Call.sqlite3_finalize] else []),
        loop.2)

/-! ## Driver: `main` -/

/-- Lines 224-229 of `main`: catalog, table, transaction, transfer, commit and
the explicit `sqlite3_close`. -/
def convert (env : Env) (tablename : String) : List Call × Except String Unit :=
  let catalog := GetDBFFields env
  match catalog.2 with
  | .error e => (catalog.1, .error e)
  | .ok fields =>
    let table := SQLCreateTable env tablename fields
    match table.2 with
    | .error e => (catalog.1 ++ table.1, .error e)
    | .ok () =>
      let transfer := DBDataToSQL env fields tablename
      match transfer.2 with
      | .error e =>
        (catalog.1 ++ table.1 ++ [Call.sqlite3_exec "begin transaction"] ++ transfer.1,
          .error e)
      | .ok () =>
        (catalog.1 ++ table.1 ++ [Call.sqlite3_exec "begin transaction"] ++ transfer.1
          ++ [Call.sqlite3_exec "commit", Call.sqlite3_close], .ok ())

/-- Lines 215-229 of `main`, the part that follows the construction of
`dbReleaser`: `sqlReleaser` closes `sql` (when non-null) as the block is left,
whether by an exception or past line 229. -/
def withSource (env : Env) (sqlitefile tablename : String) : List Call × Except String Unit :=
  if env.sqlite3_open.1 != SQLITE_OK then
    ([Call.sqlite3_open sqlitefile], .error "fail to open sqlite file")
  else
    let body := convert env tablename
    ([Call.sqlite3_open sqlitefile] ++ body.1
      ++ (if env.sqlite3_open.2 then [Call.sqlite3_close] else []), body.2)

/-- The `try` block of `main` (lines 199-229): `dbReleaser` closes the source
as the block is left once the open has succeeded. -/
def tryBlock (env : Env) (dbffile sqlitefile tablename : String) :
    List Call × Except String Unit :=
  if !env.dbf_open then
    ([Call.dbf_open dbffile], .error "fail to open dbf file")
  else
    let body := withSource env sqlitefile tablename
    ([Call.dbf_open dbffile] ++ body.1 ++ [Call.dbf_close], body.2)

/-- The function `main`: the calls made (writes to standard error included)
and the value returned.  `argc` is the length of `argv`. -/
def main (env : Env) (argv : List String) : List Call × Int :=
  if argv.length != 4 then
    ([Call.cerr "usage: dbf2sqlite [dbf file] [sqlite3 file] [table name]\n",
      Call.cerr "since dbf file has record number, it converted to recordid column.\n"], 1)
  else
    let body := tryBlock env (argv.getD 1 "") (argv.getD 2 "") (argv.getD 3 "")
    match body.2 with
    | .error e => (body.1 ++ [Call.cerr e], 0)
    | .ok () => (body.1, 0)

/-! ## Vocabulary of the statements -/

/-- The strings of a list, each preceded by the separator. -/
def sepBefore (sep : String) : List String → String
  | [] => ""
  | a :: rest => sep ++ a ++ sepBefore sep rest

/-- One column of the `create table` statement as the mapping table of the
specification gives it: the name, a blank, the type, a blank. -/
def specColumn (field : DBF_FIELD_INFO) : String :=
  field.name ++ " " ++ (specColumnType field).getD "" ++ " "

/-- The lambda that the `switch` of `DBDataToSQL` pushes for a field. -/
def binderFor (field : DBF_FIELD_INFO) : Option BindFunction :=
  match field.type with
  | DBF_DATA_TYPE_CHAR => some .charBinder
  | DBF_DATA_TYPE_INTEGER => some .integerBinder
  | DBF_DATA_TYPE_FLOAT => some .floatBinder
  | DBF_DATA_TYPE_BOOLEAN => some .booleanBinder
  | other _ => none

/-- The lambda pushed for a supported field (for an unsupported one nothing is
pushed; the value there is irrelevant). -/
def binderOf (field : DBF_FIELD_INFO) : BindFunction :=
  (binderFor field).getD .charBinder

/-- The three kinds of bind the program issues. -/
inductive BindKind where
  | text
  | integer
  | double
  deriving DecidableEq, Repr

/-- The parameter position of a bind call. -/
def Call.bindPos : Call → Option Nat
  | .sqlite3_bind_text pos _ => some pos
  | .sqlite3_bind_int pos _ => some pos
  | .sqlite3_bind_double pos _ => some pos
  | _ => none

/-- The kind of a bind call. -/
def Call.bindKind : Call → Option BindKind
  | .sqlite3_bind_text _ _ => some .text
  | .sqlite3_bind_int _ _ => some .integer
  | .sqlite3_bind_double _ _ => some .double
  | _ => none

/-- The call is one of the three binds. -/
def Call.isBind (c : Call) : Bool :=
  c.bindPos.isSome

/-- The call is `sqlite3_step`, or the bind of an integer at position `pos`:
with `pos` the position of the record id, the calls that make up an insert. -/
def Call.isInsert (pos : Nat) : Call → Bool
  | .sqlite3_step => true
  | .sqlite3_bind_int p _ => p == pos
  | _ => false

/-- The kind of bind that matches a declared column type: text for
`varchar(...)`, integer for `integer` and `boolean`, double for `real`. -/
def declaredKind (columnType : String) : Option BindKind :=
  if columnType = "integer" ∨ columnType = "boolean" then some .integer
  else if columnType = "real" then some .double
  else if "varchar(".data <+: columnType.data then some .text
  else none

/-- The source read of field `f` succeeds while the reader stands on record
`i`: the whole-number read for a Numeric field without decimals, the
fractional read for a Numeric field with decimals and for a FloatingPoint
field, the logical read for a Boolean field; a Character read cannot fail. -/
def decodeOk (env : Env) (fields : FieldListT) (i f : Nat) : Bool :=
  match (fieldAt fields f).type with
  | DBF_DATA_TYPE_CHAR => true
  | DBF_DATA_TYPE_INTEGER =>
    if (fieldAt fields f).decimals = 0 then (env.dbf_getfield_numeric i f).isSome
    else (env.dbf_getfield_float i f).isSome
  | DBF_DATA_TYPE_FLOAT => (env.dbf_getfield_float i f).isSome
  | DBF_DATA_TYPE_BOOLEAN => (env.dbf_getfield_bool i f).isSome
  | other _ => true

/-- The bind that keeps column, parameter and decoder aligned for field `f` of
record `i`: at position `f + 1`, of the kind of the column type declared for
`fields[f]`, carrying what the source read of field `f` returned; none when
that read fails. -/
def alignedBind (env : Env) (fields : FieldListT) (i f : Nat) : Option Call :=
  match (specColumnType (fieldAt fields f)).bind declaredKind with
  | some .text => some (Call.sqlite3_bind_text (f + 1) (env.dbf_getfield i f))
  | some .integer =>
    if (fieldAt fields f).type = DBF_DATA_TYPE_BOOLEAN then
      (env.dbf_getfield_bool i f).map
        (fun data => Call.sqlite3_bind_int (f + 1) (if data then 1 else 0))
    else
      (env.dbf_getfield_numeric i f).map
        (fun data => Call.sqlite3_bind_int (f + 1) (toInt32 data))
  | some .double => (env.dbf_getfield_float i f).map (Call.sqlite3_bind_double (f + 1))
  | none => none

/-- The catalog of the scenario of the specification: a Character field
`NAME` of width 10 and a Numeric field `AGE` without decimals. -/
def peopleCatalog : FieldListT :=
  [{ name := "NAME", type := DBF_DATA_TYPE_CHAR, length := 10, decimals := 0 },
   { name := "AGE", type := DBF_DATA_TYPE_INTEGER, length := 3, decimals := 0 }]

/-- The catalog `peopleCatalog` followed by a field of a type the program does
not name (a date, say) and by a second one. -/
def datedCatalog : FieldListT :=
  peopleCatalog ++
    [{ name := "BORN", type := other 3, length := 8, decimals := 0 },
     { name := "NOTE", type := other 6, length := 10, decimals := 0 }]

/-- Collaborators that answer every call with success: a source of
`recordCount` records whose catalog is `fields`, every character field reading
`bob`, every number 42, every double the bit pattern 0, every logical true. -/
def happyEnv (fields : FieldListT) (recordCount : Nat) : Env where
  dbf_open := true
  sqlite3_open := (SQLITE_OK, true)
  dbf_getfieldcount := fields.length
  dbf_getfield_info := fun fieldIndex => fields[fieldIndex]?
  execCreateTable := { ret := SQLITE_OK, szerrmsg := none, errmsg := "not an error" }
  execCreateIndex := { ret := SQLITE_OK, szerrmsg := none, errmsg := "not an error" }
  sqlite3_prepare_v2 := (SQLITE_OK, true, "not an error")
  dbf_getrecordcount := recordCount
  dbf_getfield := fun _ _ => "bob"
  dbf_getfield_numeric := fun _ _ => some 42
  dbf_getfield_float := fun _ _ => some { bits := 0 }
  dbf_getfield_bool := fun _ _ => some true
  sqlite3_step := fun _ => (SQLITE_DONE, "not an error")

/-- A call that `DBDataToSQL` can make: preparing, stepping, resetting and
finalizing the statement, binding, reading the source, asking for the error
text. -/
def Call.inTransfer : Call → Bool
  | .sqlite3_prepare_v2 _ => true
  | .sqlite3_errmsg => true
  | .dbf_getrecordcount => true
  | .dbf_setposition _ => true
  | .sqlite3_reset => true
  | .sqlite3_clear_bindings => true
  | .dbf_getfieldptr _ => true
  | .dbf_getfield _ _ => true
  | .dbf_getfield_numeric _ => true
  | .dbf_getfield_float _ => true
  | .dbf_getfield_bool _ => true
  | .sqlite3_bind_text _ _ => true
  | .sqlite3_bind_int _ _ => true
  | .sqlite3_bind_double _ _ => true
  | .sqlite3_step => true
  | .sqlite3_finalize => true
  | _ => false

/-- Every step of the conversion succeeds: the argument count is 4, both
files open, every field descriptor is retrieved (they make up the catalog
`fields`), every field is supported and the `create table` and `create index`
statements succeed, the `insert` statement is prepared, and every field of
every record is decoded and every record inserted. -/
def everyStepSucceeds (env : Env) (argv : List String) : Prop :=
  argv.length = 4 ∧ env.dbf_open = true ∧ env.sqlite3_open.1 = SQLITE_OK ∧
  ∃ fields : FieldListT,
    (fields.length = env.dbf_getfieldcount ∧
      ∀ k, k < env.dbf_getfieldcount → env.dbf_getfield_info k = fields[k]?) ∧
    ((∀ field ∈ fields, supported field = true) ∧
      env.execCreateTable.ret = SQLITE_OK ∧ env.execCreateIndex.ret = SQLITE_OK) ∧
    env.sqlite3_prepare_v2.1 = SQLITE_OK ∧
    ∀ i, i < env.dbf_getrecordcount →
      (∀ f, f < fields.length → decodeOk env fields i f = true) ∧
        (env.sqlite3_step i).1 = SQLITE_DONE

/-- The arguments of the scenario of the specification. -/
def peopleArgv : List String :=
  ["dbf2sqlite", "people.dbf", "people.db", "people"]

/-- The collaborators of `happyEnv peopleCatalog (k + 1)`, except that the
whole-number read fails on record `k` (the last one). -/
def failingAgeAt (k : Nat) : Env :=
  { happyEnv peopleCatalog (k + 1) with
    dbf_getfield_numeric := fun i _ => if i = k then none else some 42 }

/-- A catalog with the single Numeric field `TOTAL`, 10 digits, no decimals. -/
def totalCatalog : FieldListT :=
  [{ name := "TOTAL", type := DBF_DATA_TYPE_INTEGER, length := 10, decimals := 0 }]

/-- The collaborators of `happyEnv` for one record of `totalCatalog`, the value
of `TOTAL` being 2147483648 (a `long` where `long` has 64 bits). -/
def bigTotalEnv : Env :=
  { happyEnv totalCatalog 1 with dbf_getfield_numeric := fun _ _ => some 2147483648 }

/-! ## Lemmas on the generated texts -/

theorem intercalate_go_eq (sep : String) (l : List String) (acc : String) :
    String.intercalate.go acc sep l = acc ++ sepBefore sep l := by
  induction l generalizing acc with
  | nil => simp [String.intercalate.go, sepBefore]
  | cons a rest ih =>
    simp only [String.intercalate.go, sepBefore]
    rw [ih]
    simp only [String.append_assoc]

theorem intercalate_cons (sep a : String) (l : List String) :
    sep.intercalate (a :: l) = a ++ sepBefore sep l := by
  simp only [String.intercalate]
  exact intercalate_go_eq sep l a

theorem sepBefore_append (sep : String) (l₁ l₂ : List String) :
    sepBefore sep (l₁ ++ l₂) = sepBefore sep l₁ ++ sepBefore sep l₂ := by
  induction l₁ with
  | nil => simp [sepBefore]
  | cons a rest ih => simp [sepBefore, ih, String.append_assoc]

theorem specColumnType_isSome {field : DBF_FIELD_INFO} (h : supported field = true) :
    (specColumnType field).isSome = true := by
  unfold specColumnType
  unfold supported at h
  split <;> try simp_all
  split <;> simp

/-- One turn of the loop of `SQLCreateTable` on a supported field appends the
column of the mapping table. -/
theorem createTableLoop_cons_supported (field : DBF_FIELD_INFO) (rest : FieldListT)
    (i : Nat) (acc : String) (h : supported field = true) :
    createTableLoop (field :: rest) i acc =
      createTableLoop rest (i + 1)
        ((if i != 0 then acc ++ ", " else acc) ++ specColumn field) := by
  unfold supported at h
  rcases field with ⟨name, type, length, decimals⟩
  cases type with
  | other tag => simp at h
  | DBF_DATA_TYPE_INTEGER =>
    by_cases hd : decimals = 0 <;>
      simp only [createTableLoop, specColumn, specColumnType, hd, beq_self_eq_true,
        if_true, beq_iff_eq, if_false, Option.getD_some] <;>
      (congr 1; apply String.ext; simp [String.data_append])
  | _ =>
    simp only [createTableLoop, specColumn, specColumnType, Option.getD_some]
    congr 1; apply String.ext; simp [String.data_append]

theorem createTableLoop_supported (fields : FieldListT) (i : Nat) (acc : String)
    (hi : i ≠ 0) (h : ∀ field ∈ fields, supported field = true) :
    createTableLoop fields i acc = .ok (acc ++ sepBefore ", " (fields.map specColumn)) := by
  induction fields generalizing i acc with
  | nil => simp [createTableLoop, sepBefore]
  | cons field rest ih =>
    rw [createTableLoop_cons_supported field rest i acc (h field (List.mem_cons_self _ _))]
    rw [ih (i + 1) _ (Nat.succ_ne_zero i) (fun f hf => h f (List.mem_cons_of_mem _ hf))]
    simp [hi, sepBefore, String.append_assoc]

/-- The loop of `SQLCreateTable` throws at the first unsupported field, whatever
the index and the stream it starts from. -/
theorem createTableLoop_unsupported (fields : FieldListT) (field : DBF_FIELD_INFO)
    (i : Nat) (acc : String)
    (h : fields.find? (fun f => !supported f) = some field) :
    createTableLoop fields i acc = .error ("dbf2sql: not supported field " ++ field.name) := by
  induction fields generalizing i acc with
  | nil => simp at h
  | cons head rest ih =>
    by_cases hs : supported head = true
    · rw [createTableLoop_cons_supported head rest i acc hs]
      apply ih
      simpa [List.find?, hs] using h
    · have hh : head = field := by simpa [List.find?, hs] using h
      subst hh
      unfold supported at hs
      rcases head with ⟨name, type, length, decimals⟩
      cases type <;> simp at hs
      simp [createTableLoop]

theorem insertLoop_cons_supported (field : DBF_FIELD_INFO) (rest : FieldListT)
    (i : Nat) (acc : String) (bfs : List BindFunction) (h : supported field = true) :
    insertLoop (field :: rest) i acc bfs =
      insertLoop rest (i + 1) ((if i > 0 then acc ++ ", " else acc) ++ field.name)
        (bfs ++ [binderOf field]) := by
  unfold supported at h
  rcases field with ⟨name, type, length, decimals⟩
  cases type with
  | other tag => simp at h
  | _ => simp only [insertLoop, binderOf, binderFor, Option.getD_some]

theorem insertLoop_supported (fields : FieldListT) (i : Nat) (acc : String)
    (bfs : List BindFunction) (hi : 0 < i) (h : ∀ field ∈ fields, supported field = true) :
    insertLoop fields i acc bfs =
      .ok (acc ++ sepBefore ", " (fields.map (fun field => field.name)),
        bfs ++ fields.map binderOf) := by
  induction fields generalizing i acc bfs with
  | nil => simp [insertLoop, sepBefore]
  | cons field rest ih =>
    rw [insertLoop_cons_supported field rest i acc bfs (h field (List.mem_cons_self _ _))]
    rw [ih (i + 1) _ _ (Nat.succ_pos i) (fun f hf => h f (List.mem_cons_of_mem _ hf))]
    simp only [hi, if_true, List.map_cons, sepBefore, List.append_assoc, List.singleton_append]
    congr 2
    apply String.ext
    simp [String.data_append]

theorem insertLoop_unsupported (fields : FieldListT) (i : Nat) (acc : String)
    (bfs : List BindFunction) (h : ∃ field ∈ fields, supported field = false) :
    insertLoop fields i acc bfs = .error "not implement" := by
  induction fields generalizing i acc bfs with
  | nil => simp at h
  | cons head rest ih =>
    by_cases hs : supported head = true
    · rw [insertLoop_cons_supported head rest i acc bfs hs]
      apply ih
      obtain ⟨field, hmem, hfield⟩ := h
      rcases List.mem_cons.mp hmem with rfl | hmem
      · simp [hs] at hfield
      · exact ⟨field, hmem, hfield⟩
    · unfold supported at hs
      rcases head with ⟨name, type, length, decimals⟩
      cases type <;> simp at hs
      simp [insertLoop]

theorem placeholders_eq (n i : Nat) (acc : String) (hi : i ≠ 0) :
    placeholders n i acc = acc ++ sepBefore "," (List.replicate n "?") := by
  induction n generalizing i acc with
  | zero => simp [placeholders, sepBefore]
  | succ n ih =>
    simp only [placeholders, List.replicate_succ, sepBefore]
    rw [ih (i + 1) _ (Nat.succ_ne_zero i)]
    have : (i == 0) = false := by simpa using hi
    simp only [this]
    apply String.ext
    simp [String.data_append]

/-- On a catalog of supported fields the first loop of `DBDataToSQL` does not
throw and pushes one lambda per field, in catalog order. -/
theorem insertText_binders (tablename : String) (fields : FieldListT)
    (h : ∀ field ∈ fields, supported field = true) :
    ∃ sqlcommand, insertText tablename fields = .ok (sqlcommand, fields.map binderOf) := by
  unfold insertText
  cases fields with
  | nil => exact ⟨_, rfl⟩
  | cons field rest =>
    rw [insertLoop_cons_supported field rest 0 _ _ (h field (List.mem_cons_self _ _))]
    rw [insertLoop_supported rest 1 _ _ (by decide)
      (fun f hf => h f (List.mem_cons_of_mem _ hf))]
    exact ⟨_, rfl⟩

theorem insertText_unsupported (tablename : String) (fields : FieldListT)
    (h : ∃ field ∈ fields, supported field = false) :
    insertText tablename fields = .error "not implement" := by
  unfold insertText
  rw [insertLoop_unsupported fields 0 _ _ h]

/-- The `insert` text for a non-empty catalog of supported fields. -/
theorem insertText_supported (tablename : String) (fields : FieldListT)
    (hne : fields ≠ []) (h : ∀ field ∈ fields, supported field = true) :
    insertText tablename fields = .ok
      ("insert into " ++ tablename ++ "(" ++
        ", ".intercalate (fields.map (fun field => field.name) ++ ["recordid"]) ++
        ") values (" ++ ",".intercalate (List.replicate (fields.length + 1) "?") ++ ")",
        fields.map binderOf) := by
  cases fields with
  | nil => exact absurd rfl hne
  | cons field rest =>
    unfold insertText
    rw [insertLoop_cons_supported field rest 0 _ _ (h field (List.mem_cons_self _ _))]
    rw [insertLoop_supported rest 1 _ _ (by decide)
      (fun f hf => h f (List.mem_cons_of_mem _ hf))]
    simp only [List.length_cons, placeholders, List.map_cons, List.cons_append,
      List.replicate_succ, intercalate_cons, sepBefore_append, sepBefore, List.nil_append]
    rw [placeholders_eq _ (0 + 1 + 1) _ (by decide)]
    congr 2
    apply String.ext
    simp [String.data_append]

/-! ## Lemmas on the loops -/

theorem forLoop_ok_iff (body : Nat → List Call × Except String Unit) (n x : Nat) :
    (forLoop body n x).2 = .ok () ↔ ∀ k, x ≤ k → k < x + n → (body k).2 = .ok () := by
  induction n generalizing x with
  | zero =>
    simp only [forLoop, true_iff]
    intro k h1 h2
    omega
  | succ n ih =>
    simp only [forLoop]
    cases hb : (body x).2 with
    | error e =>
      simp only [false_iff, not_forall, reduceCtorEq]
      exact ⟨x, le_refl x, by omega, by simp [hb]⟩
    | ok u =>
      simp only
      rw [ih (x + 1)]
      constructor
      · intro h k h1 h2
        rcases Nat.eq_or_lt_of_le h1 with rfl | hlt
        · exact hb
        · exact h k hlt (by omega)
      · intro h k h1 h2
        exact h k (by omega) (by omega)

theorem forLoop_calls_of_ok (body : Nat → List Call × Except String Unit) (n x : Nat)
    (h : (forLoop body n x).2 = .ok ()) :
    (forLoop body n x).1 = (List.range' x n).flatMap (fun k => (body k).1) := by
  induction n generalizing x with
  | zero => simp [forLoop]
  | succ n ih =>
    have hx : (body x).2 = .ok () :=
      (forLoop_ok_iff body (n + 1) x).mp h x (le_refl x) (by omega)
    have hrest : (forLoop body n (x + 1)).2 = .ok () := by
      rw [forLoop_ok_iff]
      intro k h1 h2
      exact (forLoop_ok_iff body (n + 1) x).mp h k (by omega) (by omega)
    simp only [forLoop, hx, List.range'_succ, List.flatMap_cons]
    rw [ih (x + 1) hrest]

theorem forLoop_mem (body : Nat → List Call × Except String Unit) (n x : Nat) (c : Call)
    (h : c ∈ (forLoop body n x).1) :
    ∃ k, x ≤ k ∧ k < x + n ∧ c ∈ (body k).1 := by
  induction n generalizing x with
  | zero => simp [forLoop] at h
  | succ n ih =>
    simp only [forLoop] at h
    cases hb : (body x).2 with
    | error e =>
      simp only [hb] at h
      exact ⟨x, le_refl x, by omega, h⟩
    | ok u =>
      simp only [hb, List.mem_append] at h
      rcases h with h | h
      · exact ⟨x, le_refl x, by omega, h⟩
      · obtain ⟨k, h1, h2, h3⟩ := ih (x + 1) h
        exact ⟨k, by omega, by omega, h3⟩

/-! ## Lemmas on the lambdas -/

theorem declaredKind_varchar (x : String) :
    declaredKind ("varchar(" ++ x ++ ")") = some .text := by
  have h1 : "varchar(" ++ x ++ ")" ≠ "integer" := by
    intro h
    have := congrArg String.data h
    simp [String.data_append] at this
  have h2 : "varchar(" ++ x ++ ")" ≠ "boolean" := by
    intro h
    have := congrArg String.data h
    simp [String.data_append] at this
  have h3 : "varchar(" ++ x ++ ")" ≠ "real" := by
    intro h
    have := congrArg String.data h
    simp [String.data_append] at this
  have h4 : "varchar(".data <+: ("varchar(" ++ x ++ ")").data := by
    simp [String.data_append]
  simp [declaredKind, h1, h2, h3, h4]

/-- The binds a lambda issues for a supported field are the aligned bind, if
the read succeeds, and none otherwise. -/
theorem callBindFunction_binds (env : Env) (fields : FieldListT) (currecord : Int)
    (i f : Nat) (h : supported (fieldAt fields f) = true) :
    (callBindFunction env fields currecord i (binderOf (fieldAt fields f)) f).1.filter
      Call.isBind = (alignedBind env fields i f).toList := by
  unfold supported at h
  unfold alignedBind binderOf binderFor specColumnType
  cases ht : (fieldAt fields f).type with
  | other tag => simp [ht] at h
  | DBF_DATA_TYPE_CHAR =>
    have hk := declaredKind_varchar (toString (fieldAt fields f).length)
    simp [callBindFunction, hk, Call.isBind, Call.bindPos]
  | DBF_DATA_TYPE_INTEGER =>
    by_cases hd : (fieldAt fields f).decimals = 0
    · cases hr : env.dbf_getfield_numeric i f <;>
        simp [callBindFunction, hd, hr, declaredKind, Call.isBind, Call.bindPos]
    · cases hr : env.dbf_getfield_float i f <;>
        simp [callBindFunction, hd, hr, declaredKind, Call.isBind, Call.bindPos]
  | DBF_DATA_TYPE_FLOAT =>
    cases hr : env.dbf_getfield_float i f <;>
      simp [callBindFunction, hr, declaredKind, Call.isBind, Call.bindPos]
  | DBF_DATA_TYPE_BOOLEAN =>
    cases hr : env.dbf_getfield_bool i f <;>
      simp [callBindFunction, hr, declaredKind, Call.isBind, Call.bindPos]

/-- A lambda returns normally exactly when the read of its field succeeds. -/
theorem callBindFunction_ok_iff (env : Env) (fields : FieldListT) (currecord : Int)
    (i f : Nat) (h : supported (fieldAt fields f) = true) :
    (callBindFunction env fields currecord i (binderOf (fieldAt fields f)) f).2 = .ok () ↔
      decodeOk env fields i f = true := by
  unfold supported at h
  unfold decodeOk binderOf binderFor
  cases ht : (fieldAt fields f).type with
  | other tag => simp [ht] at h
  | DBF_DATA_TYPE_CHAR => simp [callBindFunction]
  | DBF_DATA_TYPE_INTEGER =>
    by_cases hd : (fieldAt fields f).decimals = 0
    · cases hr : env.dbf_getfield_numeric i f <;> simp [callBindFunction, hd, hr]
    · cases hr : env.dbf_getfield_float i f <;> simp [callBindFunction, hd, hr]
  | DBF_DATA_TYPE_FLOAT =>
    cases hr : env.dbf_getfield_float i f <;> simp [callBindFunction, hr]
  | DBF_DATA_TYPE_BOOLEAN =>
    cases hr : env.dbf_getfield_bool i f <;> simp [callBindFunction, hr]

/-- Whatever the lambda, called with `f` it steps nothing and binds at
position `f + 1` only. -/
theorem callBindFunction_isInsert (env : Env) (fields : FieldListT) (currecord : Int)
    (i f pos : Nat) (b : BindFunction) (hpos : pos ≠ f + 1) :
    ∀ c ∈ (callBindFunction env fields currecord i b f).1, Call.isInsert pos c = false := by
  have hne : (f + 1 == pos) = false := by simpa using fun h => hpos h.symm
  cases b with
  | charBinder => simp [callBindFunction, Call.isInsert]
  | integerBinder =>
    by_cases hd : (fieldAt fields f).decimals = 0
    · cases hr : env.dbf_getfield_numeric i f <;>
        simp [callBindFunction, hd, hr, Call.isInsert, hne]
    · cases hr : env.dbf_getfield_float i f <;>
        simp [callBindFunction, hd, hr, Call.isInsert]
  | floatBinder =>
    cases hr : env.dbf_getfield_float i f <;> simp [callBindFunction, hr, Call.isInsert]
  | booleanBinder =>
    cases hr : env.dbf_getfield_bool i f <;>
      simp [callBindFunction, hr, Call.isInsert, hne]

/-! ## Lemmas on the record loop -/

theorem forLoop_filter_of_ok (body : Nat → List Call × Except String Unit) (n x : Nat)
    (p : Call → Bool) (h : (forLoop body n x).2 = .ok ()) :
    (forLoop body n x).1.filter p =
      (List.range' x n).flatMap (fun k => (body k).1.filter p) := by
  rw [forLoop_calls_of_ok body n x h, List.filter_flatMap]

theorem supported_fieldAt (fields : FieldListT) (f : Nat) (hf : f < fields.length)
    (h : ∀ field ∈ fields, supported field = true) :
    supported (fieldAt fields f) = true := by
  unfold fieldAt
  rw [List.getD_eq_getElem _ _ hf]
  exact h _ (List.getElem_mem hf)

theorem bindTurn_eq (env : Env) (fields : FieldListT) (currecord : Int) (i f : Nat)
    (hf : f < fields.length) :
    bindTurn env fields (fields.map binderOf) currecord i f =
      callBindFunction env fields currecord i (binderOf (fieldAt fields f)) f := by
  unfold bindTurn fieldAt
  rw [List.getElem?_map, List.getElem?_eq_getElem hf, List.getD_eq_getElem _ _ hf]
  rfl

theorem bindLoop_ok_iff (env : Env) (fields : FieldListT) (currecord : Int) (i : Nat)
    (h : ∀ field ∈ fields, supported field = true) :
    (bindLoop env fields (fields.map binderOf) currecord i).2 = .ok () ↔
      ∀ f, f < fields.length → decodeOk env fields i f = true := by
  unfold bindLoop
  rw [forLoop_ok_iff]
  constructor
  · intro hall f hf
    have := hall f (Nat.zero_le f) (by omega)
    rw [bindTurn_eq env fields currecord i f hf] at this
    exact (callBindFunction_ok_iff env fields currecord i f
      (supported_fieldAt fields f hf h)).mp this
  · intro hall f _ hf
    have hf : f < fields.length := by omega
    rw [bindTurn_eq env fields currecord i f hf]
    exact (callBindFunction_ok_iff env fields currecord i f
      (supported_fieldAt fields f hf h)).mpr (hall f hf)

theorem bindLoop_binds_of_ok (env : Env) (fields : FieldListT) (currecord : Int) (i : Nat)
    (h : ∀ field ∈ fields, supported field = true)
    (hok : (bindLoop env fields (fields.map binderOf) currecord i).2 = .ok ()) :
    (bindLoop env fields (fields.map binderOf) currecord i).1.filter Call.isBind =
      (List.range fields.length).filterMap (alignedBind env fields i) := by
  unfold bindLoop at hok ⊢
  rw [forLoop_filter_of_ok _ _ _ _ hok, List.filterMap_eq_flatMap_toList,
    List.range_eq_range']
  apply List.flatMap_congr
  intro f hf
  have hf : f < fields.length := by
    have := List.mem_range'_1.mp hf
    omega
  rw [bindTurn_eq env fields currecord i f hf]
  exact callBindFunction_binds env fields currecord i f (supported_fieldAt fields f hf h)

theorem bindLoop_bind_mem (env : Env) (fields : FieldListT) (currecord : Int) (i : Nat)
    (h : ∀ field ∈ fields, supported field = true) (c : Call)
    (hc : c ∈ (bindLoop env fields (fields.map binderOf) currecord i).1)
    (hb : c.isBind = true) :
    ∃ f, f < fields.length ∧ alignedBind env fields i f = some c := by
  unfold bindLoop at hc
  obtain ⟨f, _, hf, hmem⟩ := forLoop_mem _ _ _ _ hc
  have hf : f < fields.length := by omega
  refine ⟨f, hf, ?_⟩
  rw [bindTurn_eq env fields currecord i f hf] at hmem
  have hin : c ∈ (callBindFunction env fields currecord i (binderOf (fieldAt fields f)) f).1.filter
      Call.isBind := List.mem_filter.mpr ⟨hmem, hb⟩
  rw [callBindFunction_binds env fields currecord i f (supported_fieldAt fields f hf h)] at hin
  simpa [Option.mem_toList] using hin

theorem bindLoop_isInsert (env : Env) (fields : FieldListT) (bfs : List BindFunction)
    (currecord : Int) (i : Nat) :
    ∀ c ∈ (bindLoop env fields bfs currecord i).1,
      Call.isInsert (fields.length + 1) c = false := by
  intro c hc
  unfold bindLoop at hc
  obtain ⟨f, _, hf, hmem⟩ := forLoop_mem _ _ _ _ hc
  unfold bindTurn at hmem
  cases hb : bfs[f]? with
  | none => simp [hb] at hmem
  | some b =>
    simp only [hb] at hmem
    exact callBindFunction_isInsert env fields currecord i f (fields.length + 1) b
      (by omega) c hmem

theorem recordTurn_of_error (env : Env) (fields : FieldListT) (bfs : List BindFunction)
    (currecord : Int) (i : Nat) (e : String)
    (hb : (bindLoop env fields bfs currecord i).2 = .error e) :
    recordTurn env fields bfs currecord i =
      ([Call.dbf_setposition i, Call.sqlite3_reset, Call.sqlite3_clear_bindings]
        ++ (bindLoop env fields bfs currecord i).1, .error e) := by
  unfold recordTurn
  simp only [hb]

theorem recordTurn_of_done (env : Env) (fields : FieldListT) (bfs : List BindFunction)
    (currecord : Int) (i : Nat)
    (hb : (bindLoop env fields bfs currecord i).2 = .ok ())
    (hs : (env.sqlite3_step i).1 = SQLITE_DONE) :
    recordTurn env fields bfs currecord i =
      ([Call.dbf_setposition i, Call.sqlite3_reset, Call.sqlite3_clear_bindings]
        ++ (bindLoop env fields bfs currecord i).1 ++
        [Call.sqlite3_bind_int (fields.length + 1) (toInt32 ((i + 1 : Nat) : Int)),
          Call.sqlite3_step], .ok ()) := by
  unfold recordTurn
  simp only [hb, hs, bne_self_eq_false, Bool.false_eq_true, if_false]

theorem recordTurn_of_not_done (env : Env) (fields : FieldListT) (bfs : List BindFunction)
    (currecord : Int) (i : Nat)
    (hb : (bindLoop env fields bfs currecord i).2 = .ok ())
    (hs : (env.sqlite3_step i).1 ≠ SQLITE_DONE) :
    recordTurn env fields bfs currecord i =
      ([Call.dbf_setposition i, Call.sqlite3_reset, Call.sqlite3_clear_bindings]
        ++ (bindLoop env fields bfs currecord i).1 ++
        [Call.sqlite3_bind_int (fields.length + 1) (toInt32 ((i + 1 : Nat) : Int)),
          Call.sqlite3_step] ++ [Call.sqlite3_errmsg],
        .error ("sqlite: fail to insert data for record " ++ toString i ++ ": "
          ++ (env.sqlite3_step i).2)) := by
  have hs2 : ((env.sqlite3_step i).1 != SQLITE_DONE) = true := by simpa using hs
  unfold recordTurn
  simp only [hb, hs2, if_true]

/-- The three ways a turn of the record loop can end. -/
theorem recordTurn_cases (env : Env) (fields : FieldListT) (bfs : List BindFunction)
    (currecord : Int) (i : Nat) :
    (∃ e, (bindLoop env fields bfs currecord i).2 = .error e) ∨
    ((bindLoop env fields bfs currecord i).2 = .ok () ∧
      (env.sqlite3_step i).1 = SQLITE_DONE) ∨
    ((bindLoop env fields bfs currecord i).2 = .ok () ∧
      (env.sqlite3_step i).1 ≠ SQLITE_DONE) := by
  cases hb : (bindLoop env fields bfs currecord i).2 with
  | error e => exact Or.inl ⟨e, rfl⟩
  | ok u =>
    by_cases hs : (env.sqlite3_step i).1 = SQLITE_DONE
    · exact Or.inr (Or.inl ⟨rfl, hs⟩)
    · exact Or.inr (Or.inr ⟨rfl, hs⟩)

theorem recordTurn_ok_iff_bindLoop (env : Env) (fields : FieldListT) (bfs : List BindFunction)
    (currecord : Int) (i : Nat) :
    (recordTurn env fields bfs currecord i).2 = .ok () ↔
      (bindLoop env fields bfs currecord i).2 = .ok () ∧
        (env.sqlite3_step i).1 = SQLITE_DONE := by
  rcases recordTurn_cases env fields bfs currecord i with ⟨e, hb⟩ | ⟨hb, hs⟩ | ⟨hb, hs⟩
  · rw [recordTurn_of_error env fields bfs currecord i e hb]
    simp [hb]
  · rw [recordTurn_of_done env fields bfs currecord i hb hs]
    simp [hb, hs]
  · rw [recordTurn_of_not_done env fields bfs currecord i hb hs]
    simp [hs]

theorem recordTurn_ok_iff (env : Env) (fields : FieldListT) (currecord : Int) (i : Nat)
    (h : ∀ field ∈ fields, supported field = true) :
    (recordTurn env fields (fields.map binderOf) currecord i).2 = .ok () ↔
      (∀ f, f < fields.length → decodeOk env fields i f = true) ∧
        (env.sqlite3_step i).1 = SQLITE_DONE := by
  rw [recordTurn_ok_iff_bindLoop, bindLoop_ok_iff env fields currecord i h]

theorem recordTurn_inserts_of_ok (env : Env) (fields : FieldListT) (bfs : List BindFunction)
    (currecord : Int) (i : Nat)
    (hok : (recordTurn env fields bfs currecord i).2 = .ok ()) :
    (recordTurn env fields bfs currecord i).1.filter (Call.isInsert (fields.length + 1)) =
      [Call.sqlite3_bind_int (fields.length + 1) (toInt32 ((i + 1 : Nat) : Int)),
        Call.sqlite3_step] := by
  have hnil : (bindLoop env fields bfs currecord i).1.filter
      (Call.isInsert (fields.length + 1)) = [] := by
    rw [List.filter_eq_nil_iff]
    intro c hc
    simp [bindLoop_isInsert env fields bfs currecord i c hc]
  obtain ⟨hb, hs⟩ := (recordTurn_ok_iff_bindLoop env fields bfs currecord i).mp hok
  rw [recordTurn_of_done env fields bfs currecord i hb hs]
  simp [List.filter_append, hnil, Call.isInsert, List.filter_cons]

theorem recordTurn_binds_of_ok (env : Env) (fields : FieldListT) (currecord : Int) (i : Nat)
    (h : ∀ field ∈ fields, supported field = true)
    (hok : (recordTurn env fields (fields.map binderOf) currecord i).2 = .ok ()) :
    (recordTurn env fields (fields.map binderOf) currecord i).1.filter Call.isBind =
      (List.range fields.length).filterMap (alignedBind env fields i) ++
        [Call.sqlite3_bind_int (fields.length + 1) (toInt32 ((i + 1 : Nat) : Int))] := by
  obtain ⟨hb, hs⟩ := (recordTurn_ok_iff_bindLoop env fields _ currecord i).mp hok
  have hbinds := bindLoop_binds_of_ok env fields currecord i h hb
  rw [recordTurn_of_done env fields _ currecord i hb hs]
  simp [List.filter_append, hbinds, Call.isBind, Call.bindPos, List.filter_cons]

theorem recordTurn_bind_mem (env : Env) (fields : FieldListT) (currecord : Int) (i : Nat)
    (h : ∀ field ∈ fields, supported field = true) (c : Call)
    (hc : c ∈ (recordTurn env fields (fields.map binderOf) currecord i).1)
    (hb : c.isBind = true) :
    c = Call.sqlite3_bind_int (fields.length + 1) (toInt32 ((i + 1 : Nat) : Int)) ∨
      ∃ f, f < fields.length ∧ alignedBind env fields i f = some c := by
  have hloop := bindLoop_bind_mem env fields currecord i h c
  rcases recordTurn_cases env fields (fields.map binderOf) currecord i with
    ⟨e, hbl⟩ | ⟨hbl, hs⟩ | ⟨hbl, hs⟩
  · rw [recordTurn_of_error env fields _ currecord i e hbl] at hc
    simp only [List.mem_append, List.mem_cons, List.mem_singleton] at hc
    rcases hc with (rfl | rfl | rfl | hc) | hc
    · simp [Call.isBind, Call.bindPos] at hb
    · simp [Call.isBind, Call.bindPos] at hb
    · simp [Call.isBind, Call.bindPos] at hb
    · simp at hc
    · exact Or.inr (hloop hc hb)
  · rw [recordTurn_of_done env fields _ currecord i hbl hs] at hc
    simp only [List.mem_append, List.mem_cons, List.mem_singleton] at hc
    rcases hc with ((rfl | rfl | rfl | hc) | hc) | (rfl | rfl | hc)
    · simp [Call.isBind, Call.bindPos] at hb
    · simp [Call.isBind, Call.bindPos] at hb
    · simp [Call.isBind, Call.bindPos] at hb
    · simp at hc
    · exact Or.inr (hloop hc hb)
    · exact Or.inl rfl
    · simp [Call.isBind, Call.bindPos] at hb
    · simp at hc
  · rw [recordTurn_of_not_done env fields _ currecord i hbl hs] at hc
    simp only [List.mem_append, List.mem_cons, List.mem_singleton] at hc
    rcases hc with (((rfl | rfl | rfl | hc) | hc) | (rfl | rfl | hc)) | (rfl | hc)
    · simp [Call.isBind, Call.bindPos] at hb
    · simp [Call.isBind, Call.bindPos] at hb
    · simp [Call.isBind, Call.bindPos] at hb
    · simp at hc
    · exact Or.inr (hloop hc hb)
    · exact Or.inl rfl
    · simp [Call.isBind, Call.bindPos] at hb
    · simp at hc
    · simp [Call.isBind, Call.bindPos] at hb
    · simp at hc

/-! ## Lemmas on `DBDataToSQL` -/

theorem DBDataToSQL_of_prepare_failed (env : Env) (fields : FieldListT) (tablename : String)
    (sqlcommand : String) (bfs : List BindFunction)
    (ht : insertText tablename fields = .ok (sqlcommand, bfs))
    (hp : env.sqlite3_prepare_v2.1 ≠ SQLITE_OK) :
    DBDataToSQL env fields tablename =
      ([Call.sqlite3_prepare_v2 sqlcommand, Call.sqlite3_errmsg],
        .error ("sqlite: fail to parse sql " ++ sqlcommand ++ ": "
          ++ env.sqlite3_prepare_v2.2.2)) := by
  have hp2 : (env.sqlite3_prepare_v2.1 != SQLITE_OK) = true := by simpa using hp
  unfold DBDataToSQL
  simp only [ht, hp2, if_true]

theorem DBDataToSQL_of_prepared (env : Env) (fields : FieldListT) (tablename : String)
    (sqlcommand : String) (bfs : List BindFunction)
    (ht : insertText tablename fields = .ok (sqlcommand, bfs))
    (hp : env.sqlite3_prepare_v2.1 = SQLITE_OK) :
    DBDataToSQL env fields tablename =
      ([Call.sqlite3_prepare_v2 sqlcommand, Call.dbf_getrecordcount]
        ++ (recordLoop env fields bfs 0 env.dbf_getrecordcount).1
        ++ (if env.sqlite3_prepare_v2.2.1 then [Call.sqlite3_finalize] else []),
        (recordLoop env fields bfs 0 env.dbf_getrecordcount).2) := by
  unfold DBDataToSQL
  simp only [ht, hp, bne_self_eq_false, Bool.false_eq_true, if_false]

theorem recordLoop_ok_iff (env : Env) (fields : FieldListT) (currecord : Int) (n : Nat)
    (h : ∀ field ∈ fields, supported field = true) :
    (recordLoop env fields (fields.map binderOf) currecord n).2 = .ok () ↔
      ∀ i, i < n → (∀ f, f < fields.length → decodeOk env fields i f = true) ∧
        (env.sqlite3_step i).1 = SQLITE_DONE := by
  unfold recordLoop
  rw [forLoop_ok_iff]
  constructor
  · intro hall i hi
    exact (recordTurn_ok_iff env fields currecord i h).mp (hall i (Nat.zero_le i) (by omega))
  · intro hall i _ hi
    exact (recordTurn_ok_iff env fields currecord i h).mpr (hall i (by omega))

/-- On a catalog of supported fields `DBDataToSQL` returns normally exactly
when the statement is prepared and every record is decoded and inserted. -/
theorem DBDataToSQL_ok_iff (env : Env) (fields : FieldListT) (tablename : String)
    (h : ∀ field ∈ fields, supported field = true) :
    (DBDataToSQL env fields tablename).2 = .ok () ↔
      env.sqlite3_prepare_v2.1 = SQLITE_OK ∧
      ∀ i, i < env.dbf_getrecordcount →
        (∀ f, f < fields.length → decodeOk env fields i f = true) ∧
          (env.sqlite3_step i).1 = SQLITE_DONE := by
  obtain ⟨sqlcommand, ht⟩ := insertText_binders tablename fields h
  by_cases hp : env.sqlite3_prepare_v2.1 = SQLITE_OK
  · rw [DBDataToSQL_of_prepared env fields tablename _ _ ht hp]
    simp only [hp, true_and]
    exact recordLoop_ok_iff env fields 0 _ h
  · rw [DBDataToSQL_of_prepare_failed env fields tablename _ _ ht hp]
    simp [hp]

theorem filter_finalize (p : Call → Bool) (b : Bool) (hp : p Call.sqlite3_finalize = false) :
    (if b then [Call.sqlite3_finalize] else []).filter p = [] := by
  cases b <;> simp [hp]

theorem DBDataToSQL_inserts_of_ok (env : Env) (fields : FieldListT) (tablename : String)
    (h : ∀ field ∈ fields, supported field = true)
    (hok : (DBDataToSQL env fields tablename).2 = .ok ()) :
    (DBDataToSQL env fields tablename).1.filter (Call.isInsert (fields.length + 1)) =
      (List.range env.dbf_getrecordcount).flatMap (fun i =>
        [Call.sqlite3_bind_int (fields.length + 1) (toInt32 ((i + 1 : Nat) : Int)),
          Call.sqlite3_step]) := by
  obtain ⟨sqlcommand, ht⟩ := insertText_binders tablename fields h
  have hp := ((DBDataToSQL_ok_iff env fields tablename h).mp hok).1
  rw [DBDataToSQL_of_prepared env fields tablename _ _ ht hp] at hok ⊢
  simp only at hok
  have hfin := filter_finalize (Call.isInsert (fields.length + 1))
    env.sqlite3_prepare_v2.2.1 rfl
  simp only [List.filter_append, hfin, List.append_nil]
  have h0 : [Call.sqlite3_prepare_v2 sqlcommand, Call.dbf_getrecordcount].filter
      (Call.isInsert (fields.length + 1)) = [] := rfl
  rw [h0, List.nil_append]
  unfold recordLoop at hok ⊢
  rw [forLoop_filter_of_ok _ _ _ _ hok, List.range_eq_range']
  apply List.flatMap_congr
  intro i hi
  exact recordTurn_inserts_of_ok env fields _ 0 i
    ((forLoop_ok_iff _ _ _).mp hok i (List.mem_range'_1.mp hi).1 (List.mem_range'_1.mp hi).2)

theorem DBDataToSQL_binds_of_ok (env : Env) (fields : FieldListT) (tablename : String)
    (h : ∀ field ∈ fields, supported field = true)
    (hok : (DBDataToSQL env fields tablename).2 = .ok ()) :
    (DBDataToSQL env fields tablename).1.filter Call.isBind =
      (List.range env.dbf_getrecordcount).flatMap (fun i =>
        (List.range fields.length).filterMap (alignedBind env fields i) ++
          [Call.sqlite3_bind_int (fields.length + 1) (toInt32 ((i + 1 : Nat) : Int))]) := by
  obtain ⟨sqlcommand, ht⟩ := insertText_binders tablename fields h
  have hp := ((DBDataToSQL_ok_iff env fields tablename h).mp hok).1
  rw [DBDataToSQL_of_prepared env fields tablename _ _ ht hp] at hok ⊢
  simp only at hok
  have hfin := filter_finalize Call.isBind env.sqlite3_prepare_v2.2.1 rfl
  simp only [List.filter_append, hfin, List.append_nil]
  have h0 : [Call.sqlite3_prepare_v2 sqlcommand, Call.dbf_getrecordcount].filter
      Call.isBind = [] := rfl
  rw [h0, List.nil_append]
  unfold recordLoop at hok ⊢
  rw [forLoop_filter_of_ok _ _ _ _ hok, List.range_eq_range']
  apply List.flatMap_congr
  intro i hi
  exact recordTurn_binds_of_ok env fields 0 i h
    ((forLoop_ok_iff _ _ _).mp hok i (List.mem_range'_1.mp hi).1 (List.mem_range'_1.mp hi).2)

/-- Whatever the collaborators answer, every bind in the trace of `DBDataToSQL`
on a catalog of supported fields is the bind of a record id at the last
position or the aligned bind of some field of some record. -/
theorem DBDataToSQL_bind_mem (env : Env) (fields : FieldListT) (tablename : String)
    (h : ∀ field ∈ fields, supported field = true) (c : Call)
    (hc : c ∈ (DBDataToSQL env fields tablename).1) (hb : c.isBind = true) :
    ∃ i, i < env.dbf_getrecordcount ∧
      (c = Call.sqlite3_bind_int (fields.length + 1) (toInt32 ((i + 1 : Nat) : Int)) ∨
        ∃ f, f < fields.length ∧ alignedBind env fields i f = some c) := by
  obtain ⟨sqlcommand, ht⟩ := insertText_binders tablename fields h
  by_cases hp : env.sqlite3_prepare_v2.1 = SQLITE_OK
  · rw [DBDataToSQL_of_prepared env fields tablename _ _ ht hp] at hc
    simp only [List.mem_append, List.mem_cons, List.mem_singleton] at hc
    rcases hc with ((rfl | rfl | hc) | hc) | hc
    · simp [Call.isBind, Call.bindPos] at hb
    · simp [Call.isBind, Call.bindPos] at hb
    · simp at hc
    · unfold recordLoop at hc
      obtain ⟨i, _, hi, hmem⟩ := forLoop_mem _ _ _ _ hc
      exact ⟨i, by omega, recordTurn_bind_mem env fields 0 i h c hmem hb⟩
    · cases hfin : env.sqlite3_prepare_v2.2.1 <;> simp [hfin] at hc
      subst hc
      simp [Call.isBind, Call.bindPos] at hb
  · rw [DBDataToSQL_of_prepare_failed env fields tablename _ _ ht hp] at hc
    simp only [List.mem_cons, List.mem_singleton] at hc
    rcases hc with rfl | rfl | hc
    · simp [Call.isBind, Call.bindPos] at hb
    · simp [Call.isBind, Call.bindPos] at hb
    · simp at hc

theorem toInt32_of_fits (v : Int) (h1 : -2147483648 ≤ v) (h2 : v ≤ 2147483647) :
    toInt32 v = v := by
  unfold toInt32
  omega

theorem toInt32_lt (v : Int) : toInt32 v < 2147483648 := by
  unfold toInt32
  omega

theorem flatMap_pair_getElem? (g : Nat → Call) (b : Call) (n i : Nat) (hi : i < n) :
    ((List.range n).flatMap (fun k => [g k, b]))[2 * i]? = some (g i) := by
  have hlen : ∀ m, ((List.range m).flatMap (fun k => [g k, b])).length = 2 * m := by
    intro m
    induction m with
    | zero => simp
    | succ m ih => simp [List.range_succ, List.flatMap_append, ih]; omega
  induction n with
  | zero => omega
  | succ n ih =>
    rw [List.range_succ, List.flatMap_append, List.getElem?_append]
    rw [hlen n]
    by_cases hlt : i < n
    · rw [if_pos (by omega)]
      exact ih hlt
    · have : i = n := by omega
      subst this
      rw [if_neg (by omega)]
      simp

theorem count_step_pairs (g : Nat → Call) (hg : ∀ k, g k ≠ Call.sqlite3_step)
    (l : List Nat) :
    (l.flatMap (fun k => [g k, Call.sqlite3_step])).count Call.sqlite3_step = l.length := by
  induction l with
  | nil => simp
  | cons k rest ih =>
    rw [List.flatMap_cons, List.count_append, ih]
    simp [List.count_cons, hg k]
    omega

/-- A loop whose turns before `k` return normally and whose turn `k` throws,
throws what turn `k` throws. -/
theorem forLoop_first_error (body : Nat → List Call × Except String Unit) (n x k : Nat)
    (e : String) (hx : x ≤ k) (hk : k < x + n)
    (hbefore : ∀ j, x ≤ j → j < k → (body j).2 = .ok ())
    (hat : (body k).2 = .error e) :
    (forLoop body n x).2 = .error e := by
  induction n generalizing x with
  | zero => omega
  | succ n ih =>
    simp only [forLoop]
    rcases Nat.eq_or_lt_of_le hx with rfl | hlt
    · simp only [hat]
    · have hxo : (body x).2 = .ok () := hbefore x (le_refl x) hlt
      simp only [hxo]
      exact ih (x + 1) hlt (by omega) (fun j h1 h2 => hbefore j (by omega) h2)

/-! ## Lemmas on `SQLCreateTable` -/

theorem exists_first_unsupported (fields : FieldListT)
    (h : ∃ field ∈ fields, supported field = false) :
    ∃ first, fields.find? (fun field => !supported field) = some first := by
  obtain ⟨field, hmem, hfield⟩ := h
  cases hfind : fields.find? (fun field => !supported field) with
  | none =>
    rw [List.find?_eq_none] at hfind
    have := hfind field hmem
    simp [hfield] at this
  | some first => exact ⟨first, rfl⟩

theorem SQLCreateTable_rejects (env : Env) (tablename : String) (fields : FieldListT)
    (first : DBF_FIELD_INFO)
    (h : fields.find? (fun field => !supported field) = some first) :
    SQLCreateTable env tablename fields =
      ([], .error ("dbf2sql: not supported field " ++ first.name)) := by
  unfold SQLCreateTable createTableText
  rw [createTableLoop_unsupported fields first 0 _ h]

theorem createTableText_supported_ok (tablename : String) (fields : FieldListT)
    (h : ∀ field ∈ fields, supported field = true) :
    ∃ sqlcommand, createTableText tablename fields = .ok (sqlcommand ++ ")") := by
  unfold createTableText
  cases fields with
  | nil => exact ⟨_, rfl⟩
  | cons field rest =>
    rw [createTableLoop_cons_supported field rest 0 _ (h field (List.mem_cons_self _ _))]
    rw [createTableLoop_supported rest 1 _ (by decide)
      (fun f hf => h f (List.mem_cons_of_mem _ hf))]
    exact ⟨_, rfl⟩

/-- Once the text is built, the calls of `SQLCreateTable` are the `create
table` statement, then possibly the `create index` statement, then possibly
`sqlite3_errmsg`. -/
theorem SQLCreateTable_calls (env : Env) (tablename : String) (fields : FieldListT)
    (sqlcommand : String) (h : createTableText tablename fields = .ok sqlcommand) :
    ∃ rest, (SQLCreateTable env tablename fields).1 = Call.sqlite3_exec sqlcommand :: rest ∧
      ∀ c ∈ rest, c = Call.sqlite3_exec (createIndexText tablename) ∨
        c = Call.sqlite3_errmsg := by
  unfold SQLCreateTable
  simp only [h, cpp_sqlite3_exec]
  by_cases h1 : env.execCreateTable.ret = SQLITE_OK
  · by_cases h2 : env.execCreateIndex.ret = SQLITE_OK
    · simp [h1, h2]
    · simp [h1, h2]
  · simp [h1]

/-! ## Schema mapper -/

/-- C1: for every table name and every non-empty catalog of supported fields,
the `create table` text built by `SQLCreateTable` declares `recordid integer`
first and then one column per catalog field, in catalog order, each made of the
field's name verbatim and the type the mapping table gives for it (every field
has one). -/
theorem C1_create_table_follows_mapping (tablename : String) (fields : FieldListT)
    (hne : fields ≠ []) (hsup : ∀ field ∈ fields, supported field = true) :
    (∀ field ∈ fields, (specColumnType field).isSome = true) ∧
    createTableText tablename fields = .ok
      ("create table \"" ++ tablename ++ "\" (" ++
        ", ".intercalate ("recordid integer" :: fields.map specColumn) ++ ")") := by
  refine ⟨fun field hf => specColumnType_isSome (hsup field hf), ?_⟩
  cases fields with
  | nil => exact absurd rfl hne
  | cons field rest =>
    unfold createTableText
    rw [createTableLoop_cons_supported field rest 0 _ (hsup field (List.mem_cons_self _ _))]
    rw [createTableLoop_supported rest 1 _ (by decide)
      (fun f hf => hsup f (List.mem_cons_of_mem _ hf))]
    rw [intercalate_cons]
    simp only [bne_self_eq_false, Bool.false_eq_true, if_false, List.map_cons, sepBefore]
    congr 1
    apply String.ext
    simp [String.data_append]

/-- C1, at the catalog of the specification's scenario. -/
theorem C1_create_table_follows_mapping_witness :
    peopleCatalog ≠ [] ∧ (∀ field ∈ peopleCatalog, supported field = true) ∧
    ((∀ field ∈ peopleCatalog, (specColumnType field).isSome = true) ∧
    createTableText "people" peopleCatalog = .ok
      ("create table \"" ++ "people" ++ "\" (" ++
        ", ".intercalate ("recordid integer" :: peopleCatalog.map specColumn) ++ ")")) :=
  ⟨by decide, by decide,
    C1_create_table_follows_mapping "people" peopleCatalog (by decide) (by decide)⟩

/-- C2: for every catalog with a field of an unsupported type, `SQLCreateTable`
throws `dbf2sql: not supported field <name>` where `<name>` is the name of the
first such field in catalog order, and it has made no call at all on the
destination connection by then (no `create table`, no `create index`). -/
theorem C2_unsupported_field_named_before_any_statement (env : Env) (tablename : String)
    (fields : FieldListT) (h : ∃ field ∈ fields, supported field = false) :
    ∃ first, fields.find? (fun field => !supported field) = some first ∧
      SQLCreateTable env tablename fields =
        ([], .error ("dbf2sql: not supported field " ++ first.name)) := by
  obtain ⟨first, hfind⟩ := exists_first_unsupported fields h
  exact ⟨first, hfind, SQLCreateTable_rejects env tablename fields first hfind⟩

/-- C2, at a catalog whose third and fourth fields are unsupported: the third
is the one named. -/
theorem C2_unsupported_field_named_before_any_statement_witness :
    (∃ field ∈ datedCatalog, supported field = false) ∧
    ∃ first, datedCatalog.find? (fun field => !supported field) = some first ∧
      SQLCreateTable (happyEnv datedCatalog 0) "people" datedCatalog =
        ([], .error ("dbf2sql: not supported field " ++ first.name)) :=
  ⟨by decide,
    C2_unsupported_field_named_before_any_statement (happyEnv datedCatalog 0) "people"
      datedCatalog (by decide)⟩

/-- C7: what the code builds for the empty catalog.  The `create table` text
ends in `(recordid integer, )`, a second, empty entry after a comma, and the
`insert` text has the column list `(, recordid)`, an empty entry before
`recordid`; neither is the one-column text the claim describes. -/
theorem C7_empty_catalog_texts :
    createTableText "t" [] = .ok "create table \"t\" (recordid integer, )" ∧
    createTableText "t" [] ≠ .ok "create table \"t\" (recordid integer)" ∧
    insertText "t" [] = .ok ("insert into t(, recordid) values (?)", []) ∧
    insertText "t" [] ≠ .ok ("insert into t(recordid) values (?)", []) := by
  refine ⟨rfl, ?_, rfl, ?_⟩
  · intro h
    have h2 : createTableText "t" [] = .ok "create table \"t\" (recordid integer, )" := rfl
    rw [h2] at h
    injection h with h
    exact absurd h (by decide)
  · intro h
    have h2 : insertText "t" [] = .ok ("insert into t(, recordid) values (?)", []) := rfl
    rw [h2] at h
    injection h with h
    injection h with h _
    exact absurd h (by decide)

/-! ## Transfer engine -/

theorem happyEnv_decodeOk (fields : FieldListT) (n i f : Nat) :
    decodeOk (happyEnv fields n) fields i f = true := by
  unfold decodeOk
  cases (fieldAt fields f).type <;> simp [happyEnv]

/-- C3, as stated, fails at a source of 2^31 records (catalog `NAME`, `AGE`,
every call succeeding): `DBDataToSQL` returns normally, and in the sequence of
record-id binds and steps the bind of the 2^31-th execution (index
`2 * (2^31 - 1)`) carries -2147483648, not 2147483648. -/
theorem C3_record_id_wraps_at_two_pow_31 :
    (DBDataToSQL (happyEnv peopleCatalog 2147483648) peopleCatalog "people").2 = .ok () ∧
    ((DBDataToSQL (happyEnv peopleCatalog 2147483648) peopleCatalog "people").1.filter
      (Call.isInsert (peopleCatalog.length + 1)))[2 * 2147483647]? =
        some (Call.sqlite3_bind_int 3 (-2147483648)) := by
  have hsup : ∀ field ∈ peopleCatalog, supported field = true := by decide
  have hok : (DBDataToSQL (happyEnv peopleCatalog 2147483648) peopleCatalog "people").2
      = .ok () := by
    rw [DBDataToSQL_ok_iff _ _ _ hsup]
    exact ⟨rfl, fun i _ => ⟨fun f _ => happyEnv_decodeOk _ _ i f, rfl⟩⟩
  refine ⟨hok, ?_⟩
  rw [DBDataToSQL_inserts_of_ok _ _ _ hsup hok]
  have hcount : (happyEnv peopleCatalog 2147483648).dbf_getrecordcount = 2147483648 := rfl
  rw [hcount, flatMap_pair_getElem? _ _ 2147483648 2147483647 (by omega)]
  rfl

/-- C3, amended: for every record count reported by the source and every
catalog of supported fields, when the statement is prepared and no decode or
insert step fails, `DBDataToSQL` returns normally and steps the statement
exactly as many times as there are records; and when the record count is at
most 2^31 - 1, the record-id binds and the steps are, in order, the bind of 1,
a step, the bind of 2, a step, ... up to the record count (nothing at all for
no record). -/
theorem C3_inserts_numbered_from_one (env : Env) (fields : FieldListT) (tablename : String)
    (hsup : ∀ field ∈ fields, supported field = true)
    (hprepare : env.sqlite3_prepare_v2.1 = SQLITE_OK)
    (hdecode : ∀ i, i < env.dbf_getrecordcount →
      ∀ f, f < fields.length → decodeOk env fields i f = true)
    (hstep : ∀ i, i < env.dbf_getrecordcount → (env.sqlite3_step i).1 = SQLITE_DONE) :
    (DBDataToSQL env fields tablename).2 = .ok () ∧
    (DBDataToSQL env fields tablename).1.count Call.sqlite3_step = env.dbf_getrecordcount ∧
    (env.dbf_getrecordcount ≤ 2147483647 →
      (DBDataToSQL env fields tablename).1.filter (Call.isInsert (fields.length + 1)) =
        (List.range env.dbf_getrecordcount).flatMap (fun i =>
          [Call.sqlite3_bind_int (fields.length + 1) ((i : Int) + 1), Call.sqlite3_step])) := by
  have hok : (DBDataToSQL env fields tablename).2 = .ok () := by
    rw [DBDataToSQL_ok_iff _ _ _ hsup]
    exact ⟨hprepare, fun i hi => ⟨hdecode i hi, hstep i hi⟩⟩
  have hins := DBDataToSQL_inserts_of_ok env fields tablename hsup hok
  refine ⟨hok, ?_, ?_⟩
  · have hc := @List.count_filter _ _ _ (Call.isInsert (fields.length + 1))
      Call.sqlite3_step (DBDataToSQL env fields tablename).1 rfl
    rw [← hc, hins, count_step_pairs _ (fun k => by simp), List.length_range]
  · intro hle
    rw [hins]
    apply List.flatMap_congr
    intro i hi
    have hi : i < env.dbf_getrecordcount := List.mem_range.mp hi
    rw [toInt32_of_fits _ (by omega) (by omega)]
    simp

/-- C3 amended, at three records of the catalog `NAME`, `AGE`. -/
theorem C3_inserts_numbered_from_one_witness :
    (DBDataToSQL (happyEnv peopleCatalog 3) peopleCatalog "people").2 = .ok () ∧
    (DBDataToSQL (happyEnv peopleCatalog 3) peopleCatalog "people").1.count
      Call.sqlite3_step = 3 ∧
    ((3 : Nat) ≤ 2147483647 →
      (DBDataToSQL (happyEnv peopleCatalog 3) peopleCatalog "people").1.filter
        (Call.isInsert (peopleCatalog.length + 1)) =
        (List.range 3).flatMap (fun i =>
          [Call.sqlite3_bind_int (peopleCatalog.length + 1) ((i : Int) + 1),
            Call.sqlite3_step])) :=
  C3_inserts_numbered_from_one (happyEnv peopleCatalog 3) peopleCatalog "people"
    (by decide) rfl (fun i _ f _ => happyEnv_decodeOk _ _ i f) (fun _ _ => rfl)

/-- C4: what the code reports when the read of the Numeric field `AGE` fails on
record `k`, whatever `k` (records `0 .. k-1` having gone through): the message
ends in `for record 0`.  The captured `currecord` is never advanced. -/
theorem C4_read_failure_always_reports_record_zero (k : Nat) :
    (DBDataToSQL (failingAgeAt k) peopleCatalog "people").2 =
      .error "dbf: fail to read integer field AGE for record 0" := by
  have hsup : ∀ field ∈ peopleCatalog, supported field = true := by decide
  obtain ⟨sqlcommand, ht⟩ := insertText_binders "people" peopleCatalog hsup
  rw [DBDataToSQL_of_prepared _ _ _ _ _ ht rfl]
  show (recordLoop (failingAgeAt k) peopleCatalog (peopleCatalog.map binderOf) 0 (k + 1)).2 = _
  unfold recordLoop
  apply forLoop_first_error _ (k + 1) 0 k _ (Nat.zero_le k) (by omega)
  · intro j _ hj
    rw [recordTurn_ok_iff _ _ _ _ hsup]
    refine ⟨fun f hf => ?_, rfl⟩
    have hf : f < 2 := hf
    have hjk : j ≠ k := by omega
    interval_cases f
    · rfl
    · simp [decodeOk, fieldAt, peopleCatalog, failingAgeAt, hjk]
  · have hb : (bindLoop (failingAgeAt k) peopleCatalog (peopleCatalog.map binderOf) 0 k).2 =
        .error "dbf: fail to read integer field AGE for record 0" := by
      unfold bindLoop
      apply forLoop_first_error _ _ 0 1 _ (by omega) (by decide)
      · intro f _ hf
        have : f = 0 := by omega
        subst this
        rfl
      · simp [bindTurn, peopleCatalog, binderOf, binderFor, callBindFunction, fieldAt,
          failingAgeAt]
        rfl
    rw [recordTurn_of_error _ _ _ _ _ _ hb]

/-- C6, as stated, fails where `long` is wider than `int`: with the single
Numeric field `TOTAL` (no decimals) and one record whose whole-number read
returns 2147483648, the integer bound at position 1 is -2147483648. -/
theorem C6_whole_number_beyond_int_is_truncated :
    DBDataToSQL bigTotalEnv totalCatalog "totals" =
      ([Call.sqlite3_prepare_v2 "insert into totals(TOTAL, recordid) values (?,?)",
        Call.dbf_getrecordcount,
        Call.dbf_setposition 0, Call.sqlite3_reset, Call.sqlite3_clear_bindings,
        Call.dbf_getfieldptr 0, Call.dbf_getfield_numeric 0,
        Call.sqlite3_bind_int 1 (-2147483648),
        Call.sqlite3_bind_int 2 1, Call.sqlite3_step,
        Call.sqlite3_finalize], .ok ()) := by
  rfl

/-- C6, amended: on a catalog of supported fields, the lambda that
`DBDataToSQL` stores for field `f`, called for record `i`, binds at position
`f + 1` exactly the value the source read returned: for a Numeric field without
decimals the whole number `v`, provided `v` lies in the range of the 32-bit
`int` of `sqlite3_bind_int`; for a Numeric field with decimals and for a
FloatingPoint field the double; for a Boolean field the logical value, as 1 or
0. -/
theorem C6_bound_value_is_value_read (env : Env) (fields : FieldListT) (tablename : String)
    (i f : Nat) (field : DBF_FIELD_INFO)
    (hsup : ∀ field ∈ fields, supported field = true) (hfield : fields[f]? = some field) :
    ∃ sqlcommand bindFunctions,
      insertText tablename fields = .ok (sqlcommand, bindFunctions) ∧
      (field.type = DBF_DATA_TYPE_INTEGER → field.decimals = 0 →
        ∀ v, env.dbf_getfield_numeric i f = some v → -2147483648 ≤ v → v ≤ 2147483647 →
          bindTurn env fields bindFunctions 0 i f =
            ([Call.dbf_getfieldptr f, Call.dbf_getfield_numeric f,
              Call.sqlite3_bind_int (f + 1) v], .ok ())) ∧
      ((field.type = DBF_DATA_TYPE_INTEGER ∧ field.decimals ≠ 0) ∨
          field.type = DBF_DATA_TYPE_FLOAT →
        ∀ d, env.dbf_getfield_float i f = some d →
          bindTurn env fields bindFunctions 0 i f =
            ([Call.dbf_getfieldptr f, Call.dbf_getfield_float f,
              Call.sqlite3_bind_double (f + 1) d], .ok ())) ∧
      (field.type = DBF_DATA_TYPE_BOOLEAN →
        ∀ b, env.dbf_getfield_bool i f = some b →
          bindTurn env fields bindFunctions 0 i f =
            ([Call.dbf_getfieldptr f, Call.dbf_getfield_bool f,
              Call.sqlite3_bind_int (f + 1) (if b then 1 else 0)], .ok ())) := by
  obtain ⟨sqlcommand, ht⟩ := insertText_binders tablename fields hsup
  have hf : f < fields.length := by
    by_contra hge
    rw [List.getElem?_eq_none (by omega)] at hfield
    simp at hfield
  have hat : fieldAt fields f = field := by
    unfold fieldAt
    rw [List.getD_eq_getElem?_getD, hfield]
    rfl
  refine ⟨sqlcommand, fields.map binderOf, ht, ?_, ?_, ?_⟩
  · intro htype hdec v hread h1 h2
    rw [bindTurn_eq env fields 0 i f hf, hat]
    simp [binderOf, binderFor, htype, callBindFunction, hat, hdec, hread,
      toInt32_of_fits v h1 h2]
  · rintro (⟨htype, hdec⟩ | htype) d hread
    · rw [bindTurn_eq env fields 0 i f hf, hat]
      simp [binderOf, binderFor, htype, callBindFunction, hat, hdec, hread]
    · rw [bindTurn_eq env fields 0 i f hf, hat]
      simp [binderOf, binderFor, htype, callBindFunction, hread]
  · intro htype b hread
    rw [bindTurn_eq env fields 0 i f hf, hat]
    simp [binderOf, binderFor, htype, callBindFunction, hread]

/-- C6 amended, at the field `AGE` (index 1) of the catalog `NAME`, `AGE`. -/
theorem C6_bound_value_is_value_read_witness :
    (∀ field ∈ peopleCatalog, supported field = true) ∧
    peopleCatalog[1]? =
      some { name := "AGE", type := DBF_DATA_TYPE_INTEGER, length := 3, decimals := 0 } ∧
    ∃ sqlcommand bindFunctions,
      insertText "people" peopleCatalog = .ok (sqlcommand, bindFunctions) ∧
      bindTurn (happyEnv peopleCatalog 1) peopleCatalog bindFunctions 0 0 1 =
        ([Call.dbf_getfieldptr 1, Call.dbf_getfield_numeric 1,
          Call.sqlite3_bind_int 2 42], .ok ()) := by
  refine ⟨by decide, rfl, ?_⟩
  obtain ⟨sqlcommand, bindFunctions, ht, hnum, _, _⟩ :=
    C6_bound_value_is_value_read (happyEnv peopleCatalog 1) peopleCatalog "people" 0 1
      { name := "AGE", type := DBF_DATA_TYPE_INTEGER, length := 3, decimals := 0 }
      (by decide) rfl
  exact ⟨sqlcommand, bindFunctions, ht, hnum rfl rfl 42 rfl (by decide) (by decide)⟩

theorem alignedBind_position_kind (env : Env) (fields : FieldListT) (i f : Nat) (c : Call)
    (h : alignedBind env fields i f = some c) :
    c.bindPos = some (f + 1) ∧
      c.bindKind = (specColumnType (fieldAt fields f)).bind declaredKind := by
  unfold alignedBind at h
  cases hk : (specColumnType (fieldAt fields f)).bind declaredKind with
  | none => simp [hk] at h
  | some kind =>
    cases kind with
    | text =>
      simp only [hk, Option.some.injEq] at h
      subst h
      exact ⟨rfl, rfl⟩
    | integer =>
      simp only [hk] at h
      split at h
      · cases hr : env.dbf_getfield_bool i f with
        | none => simp [hr] at h
        | some b =>
          simp only [hr, Option.map_some', Option.some.injEq] at h
          subst h
          exact ⟨rfl, rfl⟩
      · cases hr : env.dbf_getfield_numeric i f with
        | none => simp [hr] at h
        | some v =>
          simp only [hr, Option.map_some', Option.some.injEq] at h
          subst h
          exact ⟨rfl, rfl⟩
    | double =>
      simp only [hk] at h
      cases hr : env.dbf_getfield_float i f with
      | none => simp [hr] at h
      | some d =>
        simp only [hr, Option.map_some', Option.some.injEq] at h
        subst h
        exact ⟨rfl, rfl⟩

theorem DBDataToSQL_calls_nonempty (env : Env) (fields : FieldListT) (tablename : String)
    (h : ∀ field ∈ fields, supported field = true) :
    (DBDataToSQL env fields tablename).1 ≠ [] := by
  obtain ⟨sqlcommand, ht⟩ := insertText_binders tablename fields h
  by_cases hp : env.sqlite3_prepare_v2.1 = SQLITE_OK
  · rw [DBDataToSQL_of_prepared env fields tablename _ _ ht hp]
    simp
  · rw [DBDataToSQL_of_prepare_failed env fields tablename _ _ ht hp]
    simp

theorem DBDataToSQL_not_implement (env : Env) (fields : FieldListT) (tablename : String)
    (h : ∃ field ∈ fields, supported field = false) :
    DBDataToSQL env fields tablename = ([], .error "not implement") := by
  unfold DBDataToSQL
  simp only [insertText_unsupported tablename fields h]

theorem all_or_some_unsupported (fields : FieldListT) :
    (∀ field ∈ fields, supported field = true) ∨ ∃ field ∈ fields, supported field = false := by
  by_cases h : ∀ field ∈ fields, supported field = true
  · exact Or.inl h
  · right
    simp only [not_forall] at h
    obtain ⟨field, hmem, hfield⟩ := h
    exact ⟨field, hmem, by simpa using hfield⟩

/-- C9: column, parameter and decoder stay aligned.  For a non-empty catalog of
`N` supported fields: (1) the `insert` text lists the field names in catalog
order, then `recordid`, and has `N + 1` placeholders; (2) whatever the
collaborators answer, every bind in the trace of `DBDataToSQL` is either the
bind of the record id of some record at position `N + 1`, or the aligned bind
of some field `f` of some record, which (3) sits at position `f + 1`, carries
the read of source field `f` and has the kind of the column type declared for
`fields[f]`; (4) in a run that returns normally the binds are, record after
record, the aligned binds of fields `0 .. N-1` in order followed by the
record id.  (5) For every catalog, `DBDataToSQL` rejects it with `not
implement` exactly when `SQLCreateTable` rejects it as unsupported. -/
theorem C9_columns_parameters_decoders_aligned (env : Env) (fields : FieldListT)
    (tablename : String) (hne : fields ≠ [])
    (hsup : ∀ field ∈ fields, supported field = true) :
    (∃ bindFunctions, insertText tablename fields = .ok
      ("insert into " ++ tablename ++ "(" ++
        ", ".intercalate (fields.map (fun field => field.name) ++ ["recordid"]) ++
        ") values (" ++ ",".intercalate (List.replicate (fields.length + 1) "?") ++ ")",
        bindFunctions)) ∧
    (∀ c ∈ (DBDataToSQL env fields tablename).1, c.isBind = true →
      ∃ i, i < env.dbf_getrecordcount ∧
        (c = Call.sqlite3_bind_int (fields.length + 1) (toInt32 ((i + 1 : Nat) : Int)) ∨
          ∃ f, f < fields.length ∧ alignedBind env fields i f = some c)) ∧
    (∀ i f c, alignedBind env fields i f = some c →
      c.bindPos = some (f + 1) ∧
        c.bindKind = (specColumnType (fieldAt fields f)).bind declaredKind) ∧
    ((DBDataToSQL env fields tablename).2 = .ok () →
      (DBDataToSQL env fields tablename).1.filter Call.isBind =
        (List.range env.dbf_getrecordcount).flatMap (fun i =>
          (List.range fields.length).filterMap (alignedBind env fields i) ++
            [Call.sqlite3_bind_int (fields.length + 1) (toInt32 ((i + 1 : Nat) : Int))])) ∧
    (∀ catalog : FieldListT,
      DBDataToSQL env catalog tablename = ([], .error "not implement") ↔
        ∃ field : DBF_FIELD_INFO, SQLCreateTable env tablename catalog =
          ([], .error ("dbf2sql: not supported field " ++ field.name))) := by
  refine ⟨⟨_, insertText_supported tablename fields hne hsup⟩,
    fun c hc hb => DBDataToSQL_bind_mem env fields tablename hsup c hc hb,
    fun i f c h => alignedBind_position_kind env fields i f c h,
    fun hok => DBDataToSQL_binds_of_ok env fields tablename hsup hok, ?_⟩
  intro catalog
  rcases all_or_some_unsupported catalog with hall | hsome
  · constructor
    · intro h
      have := DBDataToSQL_calls_nonempty env catalog tablename hall
      rw [h] at this
      exact absurd rfl this
    · rintro ⟨field, h⟩
      obtain ⟨sqlcommand, ht⟩ := createTableText_supported_ok tablename catalog hall
      obtain ⟨rest, hcalls, _⟩ := SQLCreateTable_calls env tablename catalog _ ht
      rw [h] at hcalls
      simp at hcalls
  · constructor
    · intro _
      obtain ⟨first, hfind⟩ := exists_first_unsupported catalog hsome
      exact ⟨first, SQLCreateTable_rejects env tablename catalog first hfind⟩
    · intro _
      exact DBDataToSQL_not_implement env catalog tablename hsome

/-- C9, at the catalog `NAME`, `AGE` with three records. -/
theorem C9_columns_parameters_decoders_aligned_witness :
    peopleCatalog ≠ [] ∧ (∀ field ∈ peopleCatalog, supported field = true) ∧
    insertText "people" peopleCatalog =
      .ok ("insert into people(NAME, AGE, recordid) values (?,?,?)",
        [BindFunction.charBinder, BindFunction.integerBinder]) ∧
    (DBDataToSQL (happyEnv peopleCatalog 3) peopleCatalog "people").1.filter Call.isBind =
      (List.range 3).flatMap (fun i =>
        (List.range 2).filterMap (alignedBind (happyEnv peopleCatalog 3) peopleCatalog i) ++
          [Call.sqlite3_bind_int 3 (toInt32 ((i + 1 : Nat) : Int))]) :=
  ⟨by decide, by decide, rfl,
    (C9_columns_parameters_decoders_aligned (happyEnv peopleCatalog 3) peopleCatalog "people"
      (by decide) (by decide)).2.2.2.1 rfl⟩

/-! ## Driver -/

theorem GetDBFFieldsLoop_calls (env : Env) (n k : Nat) (result : FieldListT) :
    ∀ c ∈ (GetDBFFieldsLoop env n k result).1, ∃ j, c = Call.dbf_getfield_info j := by
  induction n generalizing k result with
  | zero => simp [GetDBFFieldsLoop]
  | succ n ih =>
    intro c hc
    simp only [GetDBFFieldsLoop] at hc
    cases hinfo : env.dbf_getfield_info k with
    | none =>
      simp only [hinfo, List.mem_singleton] at hc
      exact ⟨k, hc⟩
    | some field =>
      simp only [hinfo, List.mem_cons] at hc
      rcases hc with rfl | hc
      · exact ⟨k, rfl⟩
      · exact ih _ _ c hc

theorem GetDBFFields_calls (env : Env) :
    ∀ c ∈ (GetDBFFields env).1, c = Call.dbf_getfieldcount ∨ ∃ j, c = Call.dbf_getfield_info j := by
  intro c hc
  simp only [GetDBFFields, List.mem_cons] at hc
  rcases hc with rfl | hc
  · exact Or.inl rfl
  · exact Or.inr (GetDBFFieldsLoop_calls env _ _ _ c hc)

theorem createTableText_ends (tablename : String) (fields : FieldListT) (text : String)
    (h : createTableText tablename fields = .ok text) : ∃ s, text = s ++ ")" := by
  unfold createTableText at h
  cases hl : createTableLoop fields 0
      ("create table \"" ++ tablename ++ "\" (recordid integer, ") with
  | error e => simp [hl] at h
  | ok s =>
    simp only [hl, Except.ok.injEq] at h
    exact ⟨s, h.symm⟩

theorem ends_paren_ne (s t : String) (ht : t.data.getLast? ≠ some ')') : s ++ ")" ≠ t := by
  intro h
  apply ht
  rw [← h]
  simp [String.data_append]

/-- The calls of `SQLCreateTable` are `sqlite3_errmsg` and statements whose
text ends in a closing parenthesis. -/
theorem SQLCreateTable_calls_shape (env : Env) (tablename : String) (fields : FieldListT) :
    ∀ c ∈ (SQLCreateTable env tablename fields).1,
      c = Call.sqlite3_errmsg ∨ ∃ s, c = Call.sqlite3_exec (s ++ ")") := by
  intro c hc
  cases ht : createTableText tablename fields with
  | error e =>
    unfold SQLCreateTable at hc
    simp [ht] at hc
  | ok text =>
    obtain ⟨rest, hcalls, hrest⟩ := SQLCreateTable_calls env tablename fields text ht
    obtain ⟨s, hs⟩ := createTableText_ends tablename fields text ht
    rw [hcalls, List.mem_cons] at hc
    rcases hc with rfl | hc
    · exact Or.inr ⟨s, by rw [hs]⟩
    · rcases hrest c hc with rfl | rfl
      · exact Or.inr ⟨"create index " ++ tablename ++ "_recordid_index on " ++ tablename
          ++ "(recordid", by
            congr 1
            unfold createIndexText
            apply String.ext
            simp [String.data_append]⟩
      · exact Or.inl rfl

theorem callBindFunction_calls (env : Env) (fields : FieldListT) (currecord : Int)
    (i f : Nat) (b : BindFunction) :
    ∀ c ∈ (callBindFunction env fields currecord i b f).1, c.inTransfer = true := by
  cases b with
  | charBinder => simp [callBindFunction, Call.inTransfer]
  | integerBinder =>
    by_cases hd : (fieldAt fields f).decimals = 0
    · cases hr : env.dbf_getfield_numeric i f <;>
        simp [callBindFunction, hd, hr, Call.inTransfer]
    · cases hr : env.dbf_getfield_float i f <;>
        simp [callBindFunction, hd, hr, Call.inTransfer]
  | floatBinder =>
    cases hr : env.dbf_getfield_float i f <;> simp [callBindFunction, hr, Call.inTransfer]
  | booleanBinder =>
    cases hr : env.dbf_getfield_bool i f <;> simp [callBindFunction, hr, Call.inTransfer]

theorem bindLoop_calls (env : Env) (fields : FieldListT) (bfs : List BindFunction)
    (currecord : Int) (i : Nat) :
    ∀ c ∈ (bindLoop env fields bfs currecord i).1, c.inTransfer = true := by
  intro c hc
  unfold bindLoop at hc
  obtain ⟨f, _, _, hmem⟩ := forLoop_mem _ _ _ _ hc
  unfold bindTurn at hmem
  cases hb : bfs[f]? with
  | none => simp [hb] at hmem
  | some b =>
    simp only [hb] at hmem
    exact callBindFunction_calls env fields currecord i f b c hmem

theorem recordTurn_calls (env : Env) (fields : FieldListT) (bfs : List BindFunction)
    (currecord : Int) (i : Nat) :
    ∀ c ∈ (recordTurn env fields bfs currecord i).1, c.inTransfer = true := by
  intro c hc
  have hloop := bindLoop_calls env fields bfs currecord i c
  rcases recordTurn_cases env fields bfs currecord i with ⟨e, hbl⟩ | ⟨hbl, hs⟩ | ⟨hbl, hs⟩
  · rw [recordTurn_of_error env fields _ currecord i e hbl] at hc
    simp only [List.mem_append, List.mem_cons, List.mem_singleton] at hc
    rcases hc with (rfl | rfl | rfl | hc) | hc
    · rfl
    · rfl
    · rfl
    · simp at hc
    · exact hloop hc
  · rw [recordTurn_of_done env fields _ currecord i hbl hs] at hc
    simp only [List.mem_append, List.mem_cons, List.mem_singleton] at hc
    rcases hc with ((rfl | rfl | rfl | hc) | hc) | (rfl | rfl | hc)
    · rfl
    · rfl
    · rfl
    · simp at hc
    · exact hloop hc
    · rfl
    · rfl
    · simp at hc
  · rw [recordTurn_of_not_done env fields _ currecord i hbl hs] at hc
    simp only [List.mem_append, List.mem_cons, List.mem_singleton] at hc
    rcases hc with (((rfl | rfl | rfl | hc) | hc) | (rfl | rfl | hc)) | (rfl | hc)
    · rfl
    · rfl
    · rfl
    · simp at hc
    · exact hloop hc
    · rfl
    · rfl
    · simp at hc
    · rfl
    · simp at hc

/-- Whatever the catalog and the collaborators, `DBDataToSQL` makes no call
outside `Call.inTransfer`: no `sqlite3_exec`, no close. -/
theorem DBDataToSQL_calls (env : Env) (fields : FieldListT) (tablename : String) :
    ∀ c ∈ (DBDataToSQL env fields tablename).1, c.inTransfer = true := by
  intro c hc
  cases ht : insertText tablename fields with
  | error e =>
    unfold DBDataToSQL at hc
    simp [ht] at hc
  | ok pair =>
    obtain ⟨sqlcommand, bfs⟩ := pair
    by_cases hp : env.sqlite3_prepare_v2.1 = SQLITE_OK
    · rw [DBDataToSQL_of_prepared env fields tablename _ _ ht hp] at hc
      simp only [List.mem_append, List.mem_cons, List.mem_singleton] at hc
      rcases hc with ((rfl | rfl | hc) | hc) | hc
      · rfl
      · rfl
      · simp at hc
      · unfold recordLoop at hc
        obtain ⟨i, _, _, hmem⟩ := forLoop_mem _ _ _ _ hc
        exact recordTurn_calls env fields bfs 0 i c hmem
      · cases hfin : env.sqlite3_prepare_v2.2.1 <;> simp [hfin] at hc
        subst hc
        rfl
    · rw [DBDataToSQL_of_prepare_failed env fields tablename _ _ ht hp] at hc
      simp only [List.mem_cons, List.mem_singleton] at hc
      rcases hc with rfl | rfl | hc
      · rfl
      · rfl
      · simp at hc

theorem SQLCreateTable_ok_supported (env : Env) (tablename : String) (fields : FieldListT)
    (h : (SQLCreateTable env tablename fields).2 = .ok ()) :
    ∀ field ∈ fields, supported field = true := by
  rcases all_or_some_unsupported fields with hall | hsome
  · exact hall
  · obtain ⟨first, hfind⟩ := exists_first_unsupported fields hsome
    rw [SQLCreateTable_rejects env tablename fields first hfind] at h
    simp at h

/-- The four ways lines 224-229 can go. -/
theorem convert_cases (env : Env) (tablename : String) :
    (∃ e, (GetDBFFields env).2 = .error e ∧
      convert env tablename = ((GetDBFFields env).1, .error e)) ∨
    (∃ fields e, (GetDBFFields env).2 = .ok fields ∧
      (SQLCreateTable env tablename fields).2 = .error e ∧
      convert env tablename =
        ((GetDBFFields env).1 ++ (SQLCreateTable env tablename fields).1, .error e)) ∨
    (∃ fields e, (GetDBFFields env).2 = .ok fields ∧
      (SQLCreateTable env tablename fields).2 = .ok () ∧
      (DBDataToSQL env fields tablename).2 = .error e ∧
      convert env tablename =
        ((GetDBFFields env).1 ++ (SQLCreateTable env tablename fields).1
          ++ [Call.sqlite3_exec "begin transaction"] ++ (DBDataToSQL env fields tablename).1,
          .error e)) ∨
    (∃ fields, (GetDBFFields env).2 = .ok fields ∧
      (SQLCreateTable env tablename fields).2 = .ok () ∧
      (DBDataToSQL env fields tablename).2 = .ok () ∧
      convert env tablename =
        ((GetDBFFields env).1 ++ (SQLCreateTable env tablename fields).1
          ++ [Call.sqlite3_exec "begin transaction"] ++ (DBDataToSQL env fields tablename).1
          ++ [Call.sqlite3_exec "commit", Call.sqlite3_close], .ok ())) := by
  cases hG : (GetDBFFields env).2 with
  | error e =>
    left
    exact ⟨e, rfl, by simp only [convert, hG]⟩
  | ok fields =>
    right
    cases hS : (SQLCreateTable env tablename fields).2 with
    | error e =>
      left
      exact ⟨fields, e, rfl, hS, by simp only [convert, hG, hS]⟩
    | ok u =>
      right
      cases hD : (DBDataToSQL env fields tablename).2 with
      | error e =>
        left
        exact ⟨fields, e, rfl, hS, hD, by simp only [convert, hG, hS, hD]⟩
      | ok u =>
        right
        exact ⟨fields, rfl, hS, hD, by simp only [convert, hG, hS, hD]⟩

theorem commit_not_in_catalog (env : Env) :
    Call.sqlite3_exec "commit" ∉ (GetDBFFields env).1 := by
  intro h
  rcases GetDBFFields_calls env _ h with h | ⟨j, h⟩ <;> simp at h

theorem commit_not_in_table (env : Env) (tablename : String) (fields : FieldListT) :
    Call.sqlite3_exec "commit" ∉ (SQLCreateTable env tablename fields).1 := by
  intro h
  rcases SQLCreateTable_calls_shape env tablename fields _ h with h | ⟨s, h⟩
  · simp at h
  · simp only [Call.sqlite3_exec.injEq] at h
    exact ends_paren_ne s "commit" (by decide) h.symm

theorem commit_not_in_transfer (env : Env) (fields : FieldListT) (tablename : String) :
    Call.sqlite3_exec "commit" ∉ (DBDataToSQL env fields tablename).1 := by
  intro h
  have := DBDataToSQL_calls env fields tablename _ h
  simp [Call.inTransfer] at this

theorem step_not_in_catalog (env : Env) : Call.sqlite3_step ∉ (GetDBFFields env).1 := by
  intro h
  rcases GetDBFFields_calls env _ h with h | ⟨j, h⟩ <;> simp at h

theorem step_not_in_table (env : Env) (tablename : String) (fields : FieldListT) :
    Call.sqlite3_step ∉ (SQLCreateTable env tablename fields).1 := by
  intro h
  rcases SQLCreateTable_calls_shape env tablename fields _ h with h | ⟨s, h⟩ <;> simp at h

/-- Lines 224-229 issue `commit` exactly when they run to the end. -/
theorem convert_commit_iff (env : Env) (tablename : String) :
    Call.sqlite3_exec "commit" ∈ (convert env tablename).1 ↔
      (convert env tablename).2 = .ok () := by
  have h1 := commit_not_in_catalog env
  have hbegin : Call.sqlite3_exec "commit" ≠ Call.sqlite3_exec "begin transaction" := by
    decide
  rcases convert_cases env tablename with ⟨e, _, hc⟩ | ⟨fields, e, _, _, hc⟩ |
    ⟨fields, e, _, _, _, hc⟩ | ⟨fields, _, _, _, hc⟩
  · rw [hc]
    simp [h1]
  · rw [hc]
    simp [h1, commit_not_in_table env tablename fields]
  · rw [hc]
    simp [h1, commit_not_in_table env tablename fields,
      commit_not_in_transfer env fields tablename]
  · rw [hc]
    simp

theorem convert_ok_iff (env : Env) (tablename : String) :
    (convert env tablename).2 = .ok () ↔
      ∃ fields, (GetDBFFields env).2 = .ok fields ∧
        (SQLCreateTable env tablename fields).2 = .ok () ∧
        (DBDataToSQL env fields tablename).2 = .ok () := by
  rcases convert_cases env tablename with ⟨e, hG, hc⟩ | ⟨fields, e, hG, hS, hc⟩ |
    ⟨fields, e, hG, hS, hD, hc⟩ | ⟨fields, hG, hS, hD, hc⟩
  · rw [hc]
    simp [hG]
  · rw [hc]
    simp only [reduceCtorEq, false_iff, not_exists, not_and]
    intro fields2 hG2 hS2
    rw [hG] at hG2
    cases hG2
    rw [hS] at hS2
    cases hS2
  · rw [hc]
    simp only [reduceCtorEq, false_iff, not_exists, not_and]
    intro fields2 hG2 _
    rw [hG] at hG2
    cases hG2
    rw [hD]
    simp
  · rw [hc]
    simp only [true_iff]
    exact ⟨fields, hG, hS, hD⟩

/-- An occurrence of `b` in a list that has an `a` before any `b` is preceded
by that `a`. -/
theorem mem_before_of_split (a b : Call) (hab : a ≠ b) (A B : List Call) (hA : b ∉ A) :
    ∀ front back, A ++ a :: B = front ++ b :: back → a ∈ front := by
  induction A with
  | nil =>
    intro front back h
    cases front with
    | nil =>
      simp only [List.nil_append, List.cons.injEq] at h
      exact absurd h.1 hab
    | cons x front =>
      simp only [List.nil_append, List.cons_append, List.cons.injEq] at h
      rw [← h.1]
      exact List.mem_cons_self _ _
  | cons y A ih =>
    intro front back h
    cases front with
    | nil =>
      simp only [List.cons_append, List.nil_append, List.cons.injEq] at h
      rw [h.1] at hA
      exact absurd (List.mem_cons_self _ _) hA
    | cons x front =>
      simp only [List.cons_append, List.cons.injEq] at h
      exact List.mem_cons_of_mem _
        (ih (fun hb => hA (List.mem_cons_of_mem _ hb)) front back h.2)

theorem no_split_of_not_mem (b : Call) (L : List Call) (hL : b ∉ L) (a : Call) :
    ∀ front back, L = front ++ b :: back → a ∈ front := by
  intro front back h
  rw [h] at hL
  simp at hL

/-- The run of `main` with four arguments, both files opening. -/
theorem main_of_opened (env : Env) (argv : List String) (hargc : argv.length = 4)
    (hdbf : env.dbf_open = true) (hsql : env.sqlite3_open.1 = SQLITE_OK) :
    (main env argv).1 =
      [Call.dbf_open (argv.getD 1 ""), Call.sqlite3_open (argv.getD 2 "")]
        ++ (convert env (argv.getD 3 "")).1
        ++ ((if env.sqlite3_open.2 then [Call.sqlite3_close] else []) ++ [Call.dbf_close]
        ++ (match (convert env (argv.getD 3 "")).2 with
            | .error e => [Call.cerr e]
            | .ok _ => [])) := by
  unfold main tryBlock withSource
  simp only [hargc, hdbf, hsql, bne_self_eq_false, Bool.false_eq_true, if_false,
    Bool.not_true]
  cases (convert env (argv.getD 3 "")).2 <;> simp

theorem main_commit_iff (env : Env) (argv : List String) :
    Call.sqlite3_exec "commit" ∈ (main env argv).1 ↔
      argv.length = 4 ∧ env.dbf_open = true ∧ env.sqlite3_open.1 = SQLITE_OK ∧
        (convert env (argv.getD 3 "")).2 = .ok () := by
  by_cases hargc : argv.length = 4
  · by_cases hdbf : env.dbf_open = true
    · by_cases hsql : env.sqlite3_open.1 = SQLITE_OK
      · rw [main_of_opened env argv hargc hdbf hsql, ← convert_commit_iff]
        have hfin : Call.sqlite3_exec "commit" ∉
            (if env.sqlite3_open.2 then [Call.sqlite3_close] else []) := by
          cases env.sqlite3_open.2 <;> simp
        cases hc : (convert env (argv.getD 3 "")).2 <;>
          simp [hargc, hdbf, hsql, hfin]
      · have hsql2 : (env.sqlite3_open.1 != SQLITE_OK) = true := by simpa using hsql
        simp [main, tryBlock, withSource, hargc, hdbf, hsql, hsql2]
    · simp [main, tryBlock, hargc, hdbf]
  · have hargc2 : (argv.length != 4) = true := by simpa using hargc
    simp [main, hargc, hargc2]

theorem GetDBFFieldsLoop_ok_iff (env : Env) (n k : Nat) (result fields : FieldListT) :
    (GetDBFFieldsLoop env n k result).2 = .ok fields ↔
      ∃ more : FieldListT, fields = result ++ more ∧ more.length = n ∧
        ∀ j, j < n → env.dbf_getfield_info (k + j) = more[j]? := by
  induction n generalizing k result with
  | zero =>
    simp only [GetDBFFieldsLoop, Except.ok.injEq]
    constructor
    · intro h
      exact ⟨[], by simp [h], rfl, fun j hj => by omega⟩
    · rintro ⟨more, h1, h2, _⟩
      have : more = [] := List.length_eq_zero.mp h2
      simp [h1, this]
  | succ n ih =>
    simp only [GetDBFFieldsLoop]
    cases hinfo : env.dbf_getfield_info k with
    | none =>
      simp only [reduceCtorEq, false_iff, not_exists, not_and]
      intro more _ hlen hall
      have h0 := hall 0 (by omega)
      rw [Nat.add_zero, hinfo] at h0
      cases more with
      | nil => simp at hlen
      | cons x rest => simp at h0
    | some field =>
      simp only
      rw [ih (k + 1) (result ++ [field])]
      constructor
      · rintro ⟨more, h1, h2, h3⟩
        refine ⟨field :: more, by simp [h1], by simp [h2], ?_⟩
        intro j hj
        cases j with
        | zero => simpa using hinfo
        | succ j =>
          have := h3 j (by omega)
          rw [show k + (j + 1) = k + 1 + j by omega]
          simpa using this
      · rintro ⟨more, h1, h2, h3⟩
        cases more with
        | nil => simp at h2
        | cons x rest =>
          have h0 := h3 0 (by omega)
          rw [Nat.add_zero, hinfo] at h0
          simp only [List.getElem?_cons_zero, Option.some.injEq] at h0
          subst h0
          refine ⟨rest, by simp [h1], by simpa using h2, ?_⟩
          intro j hj
          have := h3 (j + 1) (by omega)
          rw [show k + (j + 1) = k + 1 + j by omega] at this
          simpa using this

/-- The catalog is built exactly when every descriptor is retrieved, and it is
then the list of the descriptors in index order. -/
theorem GetDBFFields_ok_iff (env : Env) (fields : FieldListT) :
    (GetDBFFields env).2 = .ok fields ↔
      fields.length = env.dbf_getfieldcount ∧
        ∀ k, k < env.dbf_getfieldcount → env.dbf_getfield_info k = fields[k]? := by
  unfold GetDBFFields
  simp only
  rw [GetDBFFieldsLoop_ok_iff]
  constructor
  · rintro ⟨more, h1, h2, h3⟩
    simp only [List.nil_append] at h1
    subst h1
    exact ⟨h2, fun k hk => by simpa using h3 k hk⟩
  · rintro ⟨h1, h2⟩
    exact ⟨fields, by simp, h1, fun j hj => by simpa using h2 j hj⟩

/-- The table and the index are created exactly when every field is supported
and both statements succeed. -/
theorem SQLCreateTable_ok_iff (env : Env) (tablename : String) (fields : FieldListT) :
    (SQLCreateTable env tablename fields).2 = .ok () ↔
      (∀ field ∈ fields, supported field = true) ∧
        env.execCreateTable.ret = SQLITE_OK ∧ env.execCreateIndex.ret = SQLITE_OK := by
  constructor
  · intro h
    have hsup := SQLCreateTable_ok_supported env tablename fields h
    obtain ⟨sqlcommand, ht⟩ := createTableText_supported_ok tablename fields hsup
    unfold SQLCreateTable at h
    simp only [ht, cpp_sqlite3_exec] at h
    by_cases h1 : env.execCreateTable.ret = SQLITE_OK
    · by_cases h2 : env.execCreateIndex.ret = SQLITE_OK
      · exact ⟨hsup, h1, h2⟩
      · simp [h1, h2] at h
    · simp [h1] at h
  · rintro ⟨hsup, h1, h2⟩
    obtain ⟨sqlcommand, ht⟩ := createTableText_supported_ok tablename fields hsup
    unfold SQLCreateTable
    simp [ht, cpp_sqlite3_exec, h1, h2]

/-- C5: in the calls `main` makes, `commit` is issued if and only if every step
of the conversion succeeds (four arguments, both opens, catalog, table and
index, prepare, every decode and every insert), so a run in which any of them
fails issues no `commit`; and every `sqlite3_step` is preceded by `begin
transaction`. -/
theorem C5_commit_iff_every_step_succeeds (env : Env) (argv : List String) :
    (Call.sqlite3_exec "commit" ∈ (main env argv).1 ↔ everyStepSucceeds env argv) ∧
    (∀ front back, (main env argv).1 = front ++ Call.sqlite3_step :: back →
      Call.sqlite3_exec "begin transaction" ∈ front) := by
  constructor
  · rw [main_commit_iff, convert_ok_iff]
    unfold everyStepSucceeds
    constructor
    · rintro ⟨h1, h2, h3, fields, hG, hS, hD⟩
      have hsup := SQLCreateTable_ok_supported env _ fields hS
      exact ⟨h1, h2, h3, fields, (GetDBFFields_ok_iff env fields).mp hG,
        (SQLCreateTable_ok_iff env _ fields).mp hS,
        (DBDataToSQL_ok_iff env fields _ hsup).mp hD⟩
    · rintro ⟨h1, h2, h3, fields, hG, hS, hD⟩
      exact ⟨h1, h2, h3, fields, (GetDBFFields_ok_iff env fields).mpr hG,
        (SQLCreateTable_ok_iff env _ fields).mpr hS,
        (DBDataToSQL_ok_iff env fields _ hS.1).mpr hD⟩
  · by_cases hargc : argv.length = 4
    · by_cases hdbf : env.dbf_open = true
      · by_cases hsql : env.sqlite3_open.1 = SQLITE_OK
        · rw [main_of_opened env argv hargc hdbf hsql]
          have hG := step_not_in_catalog env
          have hfin : Call.sqlite3_step ∉
              (if env.sqlite3_open.2 then [Call.sqlite3_close] else []) := by
            cases env.sqlite3_open.2 <;> simp
          have hcerr : Call.sqlite3_step ∉
              (match (convert env (argv.getD 3 "")).2 with
                | .error e => [Call.cerr e]
                | .ok _ => []) := by
            cases (convert env (argv.getD 3 "")).2 <;> simp
          rcases convert_cases env (argv.getD 3 "") with ⟨e, _, hc⟩ | ⟨fields, e, _, _, hc⟩ |
            ⟨fields, e, _, _, _, hc⟩ | ⟨fields, _, _, _, hc⟩
          · apply no_split_of_not_mem
            rw [hc]
            simp [hG, hfin]
          · apply no_split_of_not_mem
            rw [hc]
            simp [hG, hfin, step_not_in_table env _ fields]
          · rw [hc]
            intro front back h
            apply mem_before_of_split (Call.sqlite3_exec "begin transaction")
              Call.sqlite3_step (by simp)
              ([Call.dbf_open (argv.getD 1 ""), Call.sqlite3_open (argv.getD 2 "")]
                ++ (GetDBFFields env).1 ++ (SQLCreateTable env (argv.getD 3 "") fields).1)
              _ (by simp [hG, step_not_in_table env _ fields]) front back
            rw [← h]
            simp only [List.append_assoc, List.cons_append, List.nil_append,
              List.singleton_append]
            rfl
          · rw [hc]
            intro front back h
            apply mem_before_of_split (Call.sqlite3_exec "begin transaction")
              Call.sqlite3_step (by simp)
              ([Call.dbf_open (argv.getD 1 ""), Call.sqlite3_open (argv.getD 2 "")]
                ++ (GetDBFFields env).1 ++ (SQLCreateTable env (argv.getD 3 "") fields).1)
              _ (by simp [hG, step_not_in_table env _ fields]) front back
            rw [← h]
            simp only [List.append_assoc, List.cons_append, List.nil_append,
              List.singleton_append]
            rfl
        · have hsql2 : (env.sqlite3_open.1 != SQLITE_OK) = true := by simpa using hsql
          apply no_split_of_not_mem
          simp [main, tryBlock, withSource, hargc, hdbf, hsql2]
      · apply no_split_of_not_mem
        simp [main, tryBlock, hargc, hdbf]
    · have hargc2 : (argv.length != 4) = true := by simpa using hargc
      apply no_split_of_not_mem
      simp [main, hargc2]

/-- C8: `main` returns 1 exactly when the argument count (program name
included) is not 4, and 0 in every other run, whatever the collaborators do. -/
theorem C8_exit_code (env : Env) (argv : List String) :
    ((main env argv).2 = 1 ↔ argv.length ≠ 4) ∧
    (main env argv).2 = (if argv.length = 4 then 0 else 1) := by
  by_cases hargc : argv.length = 4
  · have h0 : (main env argv).2 = 0 := by
      unfold main
      simp only [hargc, bne_self_eq_false, Bool.false_eq_true, if_false]
      cases (tryBlock env (argv.getD 1 "") (argv.getD 2 "") (argv.getD 3 "")).2 <;> rfl
    simp [h0, hargc]
  · have hargc2 : (argv.length != 4) = true := by simpa using hargc
    have h1 : (main env argv).2 = 1 := by
      unfold main
      simp only [hargc2, if_true]
    simp [h1, hargc]

/-- C10: a run of `main` in which nothing fails (catalog `NAME`, `AGE`, one
record).  After `commit` come two calls of `sqlite3_close` on the same
connection: the explicit one of line 229, then the one of `sqlReleaser`. -/
theorem C10_successful_run_closes_twice :
    main (happyEnv peopleCatalog 1) peopleArgv =
      ([Call.dbf_open "people.dbf", Call.sqlite3_open "people.db",
        Call.dbf_getfieldcount, Call.dbf_getfield_info 0, Call.dbf_getfield_info 1,
        Call.sqlite3_exec
          "create table \"people\" (recordid integer, NAME varchar(10) , AGE integer )",
        Call.sqlite3_exec "create index people_recordid_index on people(recordid)",
        Call.sqlite3_exec "begin transaction",
        Call.sqlite3_prepare_v2 "insert into people(NAME, AGE, recordid) values (?,?,?)",
        Call.dbf_getrecordcount,
        Call.dbf_setposition 0, Call.sqlite3_reset, Call.sqlite3_clear_bindings,
        Call.dbf_getfieldptr 0, Call.dbf_getfield 0 10, Call.sqlite3_bind_text 1 "bob",
        Call.dbf_getfieldptr 1, Call.dbf_getfield_numeric 1, Call.sqlite3_bind_int 2 42,
        Call.sqlite3_bind_int 3 1, Call.sqlite3_step,
        Call.sqlite3_finalize,
        Call.sqlite3_exec "commit",
        Call.sqlite3_close, Call.sqlite3_close,
        Call.dbf_close], 0) ∧
    (main (happyEnv peopleCatalog 1) peopleArgv).1.count Call.sqlite3_close = 2 := by
  constructor
  · rfl
  · decide

end Dbf2Sqlite
